import Mathlib

/-
Verification of the severance_snape OSM-to-pedestrian-graph builder.

The Rust sources embedded here:
  * src/backend/src/scrape.rs   — the walking classifier `classify`
  * src/backend/src/lib.rs      — `MapModel::new`, `render`, `to_gj`, `RoadKind`, `RoadData`
  * src/osm-graph/src/graph.rs  — `Graph`, `Road`, `Intersection`, ids, `find_edge`
  * src/osm-graph/src/scrape.rs — `Graph::new`, `split_edges`
  * src/osm-graph/src/node_map.rs — `NodeMap`

Two modules of the osm-graph crate (tags.rs and mercator.rs) are declared in
lib.rs but their sources are not available; the definitions standing in for
them are modelled from the specification and are marked as such in their doc
comments.

Machine integers (OSM ids are i64, indices usize) are modelled as Nat; the
programs never overflow them and no claim depends on wrap-around.  WGS84/
Mercator coordinates are f64 in Rust; every claim treated here depends only on
coordinates being copied and compared for exact equality, never on float
arithmetic, so coordinates are modelled by the carrier Int × Int.

Rust panics (HashMap indexing on a missing key, Vec indexing out of bounds,
Option::unwrap on None) are modelled by the `BuildFailure.panicked`
constructor of an Except result; the `BuildFailure.initError` constructor
models the `Result::Err` channel of `Graph::new` (reached only by the
out-of-scope OSM parser, hence never produced by the embedded code).
-/

deriving instance DecidableEq for Except

namespace SevSnape

/-- OSM node id (osm_reader::NodeID wraps an i64; modelled as Nat). -/
abbrev NodeID := Nat

/-- OSM way id (osm_reader::WayID wraps an i64; modelled as Nat). -/
abbrev WayID := Nat

/-- A WGS84 or Mercator coordinate.  f64 in Rust; the claims only ever copy
and compare coordinates, so an arbitrary decidable carrier is used. -/
abbrev Coord := Int × Int

/-- First-match association-list lookup, standing in for HashMap / BTreeMap
lookups.  Insertions that must overwrite (HashMap::insert) prepend their
entry, so the first match is the most recent insertion. -/
def alookup {α β : Type} [DecidableEq α] : List (α × β) → α → Option β
  | [], _ => none
  | (k, v) :: rest, a => if k = a then some v else alookup rest a

/-- Modelled from the spec: osm-graph/src/tags.rs is not under src/.  The spec
describes the tag bag as an ordered mapping from tag key to string value whose
iteration order is preserved; `to_gj` in backend/src/lib.rs iterates `tags.0`,
so the single field is the ordered list of pairs. -/
structure Tags where
  pairs : List (String × String)
deriving DecidableEq, Repr

/-- Key lookup in a tag bag (first match). -/
def Tags.lookup (t : Tags) (k : String) : Option String :=
  alookup t.pairs k

/-- Modelled from the spec: `has(k)` — the key is present (missing key is not
the same as an empty value). -/
def Tags.has (t : Tags) (k : String) : Bool :=
  (t.lookup k).isSome

/-- Modelled from the spec: `is(k,v)` — the key is present with exactly value v. -/
def Tags.is (t : Tags) (k v : String) : Bool :=
  t.lookup k == some v

/-- Modelled from the spec: `is_any(k, vs)` iff some v in vs has `is(k,v)`. -/
def Tags.is_any (t : Tags) (k : String) (vs : List String) : Bool :=
  vs.any (fun v => t.is k v)

/-- Modelled from the spec: `has_any(ks)` iff some k in ks has `has(k)`. -/
def Tags.has_any (t : Tags) (ks : List String) : Bool :=
  ks.any (fun k => t.has k)

/-- backend/src/lib.rs: the closed set of walking classifications. -/
inductive RoadKind where
  | Footway
  | Indoors
  | BridgeOrTunnel
  | WithTraffic
  | Crossing
  | Severance
deriving DecidableEq, Repr

/-- The string `format!("{:?}", kind)` produces for each variant. -/
def RoadKind.debug_str : RoadKind → String
  | .Footway => "Footway"
  | .Indoors => "Indoors"
  | .BridgeOrTunnel => "BridgeOrTunnel"
  | .WithTraffic => "WithTraffic"
  | .Crossing => "Crossing"
  | .Severance => "Severance"

/-- backend/src/scrape.rs `classify`: tags to optional walking-road kind.
The Rust early returns are linearised into nested if-then-else in source
order. -/
def classify (tags : Tags) (import_streets_without_sidewalk_tagging : Bool) :
    Option RoadKind :=
  if !tags.has "highway" || tags.is "highway" "proposed" || tags.is "area" "yes" then
    none
  else if tags.is_any "highway" ["footway", "steps", "path", "track", "corridor"] then
    if tags.has "indoor" || tags.is "highway" "corridor" then some .Indoors
    else if tags.has_any ["layer", "bridge", "tunnel"] then some .BridgeOrTunnel
    else if tags.is "footway" "crossing" then some .Crossing
    else some .Footway
  else if tags.is "highway" "crossing" || tags.has "crossing" then
    some .Crossing
  else if tags.is_any "highway"
      ["motorway", "motorway_link", "trunk", "trunk_link", "primary", "primary_link"] then
    some .Severance
  else if tags.is "sidewalk" "separate" || tags.is "sidewalk:left" "separate"
      || tags.is "sidewalk:right" "separate" || tags.is "sidewalk:both" "separate" then
    none
  else if tags.is "highway" "pedestrian" || tags.is_any "sidewalk" ["both", "right", "left"] then
    some .WithTraffic
  else if (tags.is_any "highway"
        ["secondary", "secondary_link", "tertiary", "tertiary_link", "residential",
         "unclassified", "service", "living_street", "cycleway"]
      && !tags.is "foot" "no") then
    if import_streets_without_sidewalk_tagging then some .WithTraffic else none
  else
    some .Severance

/-- osm-graph/src/graph.rs: `pub struct RoadID(pub usize)`. -/
structure RoadID where
  val : Nat
deriving DecidableEq, Repr

/-- osm-graph/src/graph.rs: `pub struct IntersectionID(pub usize)`. -/
structure IntersectionID where
  val : Nat
deriving DecidableEq, Repr

/-- osm-graph/src/graph.rs `Road<RoadData>`.  The linestring is its ordered
list of coordinates. -/
structure Road (RD : Type) where
  id : RoadID
  src_i : IntersectionID
  dst_i : IntersectionID
  way : WayID
  node1 : NodeID
  node2 : NodeID
  linestring : List Coord
  data : RD
deriving DecidableEq, Repr

/-- osm-graph/src/graph.rs `Intersection<IntersectionData>`. -/
structure Intersection (ID : Type) where
  id : IntersectionID
  roads : List RoadID
  node : NodeID
  point : Coord
  data : ID
deriving DecidableEq, Repr

/-- osm-graph/src/scrape.rs: the private `Way` record retained for each kept
OSM way. -/
structure Way where
  id : WayID
  node_ids : List NodeID
  tags : Tags
deriving DecidableEq, Repr

/-- Failure channel of the graph constructor.  `initError` models the
`Result::Err` value of `Graph::new` (only the out-of-scope OSM parser's `?`
can produce it); `panicked` models a Rust panic: HashMap indexing on a
missing key, Vec indexing out of bounds, or `Option::unwrap` on `None`. -/
inductive BuildFailure where
  | initError (msg : String)
  | panicked (msg : String)
deriving DecidableEq, Repr

/-- The mutable state threaded through `split_edges`: the
`node_to_intersection` HashMap and the growing `intersections` and `roads`
vectors. -/
structure SplitState (RD ID : Type) where
  node_to_intersection : List (NodeID × IntersectionID)
  intersections : List (Intersection ID)
  roads : List (Road RD)
deriving DecidableEq, Repr

/-- Update the element at index n (identity when out of range), standing in
for `&mut intersections[i.0]`. -/
def listUpdate {α : Type} : List α → Nat → (α → α) → List α
  | [], _, _ => []
  | x :: xs, 0, f => f x :: xs
  | x :: xs, n + 1, f => x :: listUpdate xs n f

/-- osm-graph/src/scrape.rs lines 119-132: look the node up in
`node_to_intersection`, creating the intersection (with empty `roads`) on a
miss. -/
def ensure_intersection {RD ID : Type} (mkID : Unit → ID) (st : SplitState RD ID)
    (n : NodeID) (p : Coord) : SplitState RD ID × IntersectionID :=
  match alookup st.node_to_intersection n with
  | some i => (st, i)
  | none =>
    let i : IntersectionID := ⟨st.intersections.length⟩
    ({ st with
        intersections := st.intersections ++
          [{ id := i, roads := [], node := n, point := p, data := mkID () }],
        node_to_intersection := (n, i) :: st.node_to_intersection }, i)

/-- osm-graph/src/scrape.rs line 134: `intersection.roads.push(road_id)`. -/
def push_road {RD ID : Type} (st : SplitState RD ID) (i : IntersectionID)
    (rid : RoadID) : SplitState RD ID :=
  { st with intersections :=
      listUpdate st.intersections i.val (fun x => { x with roads := x.roads ++ [rid] }) }

/-- The update `intersection.roads.push(road_id)` as a function, for stating
lemmas about `push_road`. -/
def add_rid {ID : Type} (rid : RoadID) (x : Intersection ID) : Intersection ID :=
  { x with roads := x.roads ++ [rid] }

/-- The road record pushed by one emission, as a function (scrape.rs lines
138-147). -/
def mk_road {RD : Type} (rid : RoadID) (i1 i2 : IntersectionID) (wayid : WayID)
    (n1 n2 : NodeID) (pts : List Coord) (d : RD) : Road RD :=
  { id := rid, src_i := i1, dst_i := i2, way := wayid, node1 := n1, node2 := n2,
    linestring := pts, data := d }

/-- osm-graph/src/scrape.rs lines 114-147: allocate the next RoadID, resolve
or create the two endpoint intersections in order (start node then end node),
append the road id to each endpoint's `roads` list as it is resolved, and push
the road.  `pts[0]` and `*pts.last().unwrap()` are guarded by
`pts.len() > 1` at the call site, so the defaults of headD/getLastD are
unreachable. -/
def emit_road {RD ID : Type} (mkRD : Tags → RD) (mkID : Unit → ID)
    (wayid : WayID) (tags : Tags) (node1 node2 : NodeID) (pts : List Coord)
    (st : SplitState RD ID) : SplitState RD ID :=
  let road_id : RoadID := ⟨st.roads.length⟩
  let e1 := ensure_intersection mkID st node1 (pts.headD (0, 0))
  let st1 := push_road e1.1 e1.2 road_id
  let e2 := ensure_intersection mkID st1 node2 (pts.getLastD (0, 0))
  let st2 := push_road e2.1 e2.2 road_id
  { st2 with roads := st2.roads ++
      [{ id := road_id, src_i := e1.2, dst_i := e2.2, way := wayid,
         node1 := node1, node2 := node2, linestring := pts, data := mkRD tags }] }

/-- osm-graph/src/scrape.rs lines 112-113: the `is_endpoint` test for
position idx of a way with n nodes — first node, last node, or total
reference count (`node_counter`) above 1. -/
def is_endpoint (counter : NodeID → Nat) (n : Nat) (idx : Nat) (node : NodeID) : Bool :=
  idx == 0 || idx == n - 1 || decide (counter node > 1)

/-- osm-graph/src/scrape.rs lines 108-153: the
`for (idx, node) in way.node_ids.into_iter().enumerate()` loop.  Arguments
after `n` (the way's node count): remaining nodes, current idx, current
`node1`, accumulated `pts`.  `node_mapping[&node]` panics when the node id is
absent. -/
def way_loop {RD ID : Type} (nm : List (NodeID × Coord)) (counter : NodeID → Nat)
    (wayid : WayID) (tags : Tags) (mkRD : Tags → RD) (mkID : Unit → ID) (n : Nat) :
    List NodeID → Nat → NodeID → List Coord → SplitState RD ID →
      Except BuildFailure (SplitState RD ID)
  | [], _, _, _, st => .ok st
  | node :: rest, idx, node1, pts, st =>
    match alookup nm node with
    | none => .error (.panicked "no entry found for key")
    | some c =>
      let pts2 := pts ++ [c]
      if is_endpoint counter n idx node && decide (pts2.length > 1) then
        let st2 := emit_road mkRD mkID wayid tags node1 node pts2 st
        way_loop nm counter wayid tags mkRD mkID n rest (idx + 1) node [c] st2
      else
        way_loop nm counter wayid tags mkRD mkID n rest (idx + 1) node1 pts2 st

/-- osm-graph/src/scrape.rs lines 103-153: process one way.
`way.node_ids[0]` panics when the way has no nodes. -/
def process_way {RD ID : Type} (nm : List (NodeID × Coord)) (counter : NodeID → Nat)
    (mkRD : Tags → RD) (mkID : Unit → ID) (w : Way) (st : SplitState RD ID) :
    Except BuildFailure (SplitState RD ID) :=
  match w.node_ids with
  | [] => .error (.panicked "index out of bounds")
  | n0 :: _ => way_loop nm counter w.id w.tags mkRD mkID w.node_ids.length
      w.node_ids 0 n0 [] st

/-- osm-graph/src/scrape.rs lines 92-97: total number of references to a node
across all kept ways.  Each occurrence in a way's node list increments the
count, so a node occurring twice in one way counts twice. -/
def node_counter (ways : List Way) (n : NodeID) : Nat :=
  (ways.map (fun w => w.node_ids.count n)).sum

/-- osm-graph/src/scrape.rs lines 80-157: `split_edges`. -/
def split_edges {RD ID : Type} (nm : List (NodeID × Coord)) (ways : List Way)
    (mkRD : Tags → RD) (mkID : Unit → ID) :
    Except BuildFailure (SplitState RD ID) :=
  ways.foldlM (fun st w => process_way nm (node_counter ways) mkRD mkID w st)
    { node_to_intersection := [], intersections := [], roads := [] }

/-- Modelled from the spec: osm-graph/src/mercator.rs is not under src/.  The
spec says the projector stores the WGS84 bounds and a local linear frame for
small-region planar work; the frame is modelled as the translation taking the
bounding rectangle's minimum corner to the origin.  Every claim treated here
uses only that `pt_to_mercator` is a deterministic function of the coordinate
and that construction fails exactly on empty input. -/
structure Mercator where
  minX : Int
  minY : Int
  maxX : Int
  maxY : Int
deriving DecidableEq, Repr

/-- Modelled from the spec: `Mercator::from` computes the WGS84 bounding
rectangle of the geometry collection and fails (None) when the collection is
empty — the ProjectionError condition. -/
def Mercator.from_collection (coords : List Coord) : Option Mercator :=
  match coords with
  | [] => none
  | c :: rest =>
    some (rest.foldl
      (fun m p => { minX := min m.minX p.1, minY := min m.minY p.2,
                    maxX := max m.maxX p.1, maxY := max m.maxY p.2 })
      { minX := c.1, minY := c.2, maxX := c.1, maxY := c.2 })

/-- Modelled from the spec: forward projection of one coordinate into the
local planar frame. -/
def Mercator.pt_to_mercator (m : Mercator) (c : Coord) : Coord :=
  (c.1 - m.minX, c.2 - m.minY)

/-- Modelled from the spec: inverse projection, exact inverse of
`pt_to_mercator` for the linear frame. -/
def Mercator.to_wgs84_pt (m : Mercator) (c : Coord) : Coord :=
  (c.1 + m.minX, c.2 + m.minY)

/-- Modelled from the spec: `mercator.to_mercator_in_place(&mut r.linestring)`
projects every point of a road's linestring. -/
def road_to_mercator {RD : Type} (m : Mercator) (r : Road RD) : Road RD :=
  { r with linestring := r.linestring.map m.pt_to_mercator }

/-- Modelled from the spec: `mercator.to_mercator_in_place(&mut i.point)`
projects an intersection's point. -/
def inter_to_mercator {ID : Type} (m : Mercator) (i : Intersection ID) :
    Intersection ID :=
  { i with point := m.pt_to_mercator i.point }

/-- The convex hull is computed by the external geo library (an out-of-scope
collaborator); no claim depends on the hull's geometry, so it is modelled as
the point collection itself. -/
def convex_hull (coords : List Coord) : List Coord :=
  coords

/-- osm-graph/src/graph.rs `Graph<RoadData, IntersectionData>`. -/
structure Graph (RD ID : Type) where
  roads : List (Road RD)
  intersections : List (Intersection ID)
  mercator : Mercator
  boundary_polygon : List Coord
deriving DecidableEq, Repr

/-- The typed OSM elements the out-of-scope parser streams to `Graph::new`'s
callback. -/
inductive Element where
  | node (id : NodeID) (lon lat : Int)
  | way (id : WayID) (node_ids : List NodeID) (tags : Tags)
  | relation
deriving DecidableEq, Repr

/-- osm-graph/src/scrape.rs lines 26-40: the parse callback.  Nodes overwrite
the `node_mapping` HashMap entry (modelled by prepending, with first-match
lookup); kept ways are appended in stream order; relations are ignored. -/
def scan_elements (keep_road : Tags → Bool) (elements : List Element) :
    List (NodeID × Coord) × List Way :=
  elements.foldl (fun acc e =>
    match e with
    | .node id lon lat => ((id, (lon, lat)) :: acc.1, acc.2)
    | .way id node_ids tags =>
      if keep_road tags then (acc.1, acc.2 ++ [{ id := id, node_ids := node_ids, tags := tags }])
      else acc
    | .relation => acc) ([], [])

/-- The graph assembled at the end of `Graph::new`: all roads and
intersections reprojected into the Mercator frame. -/
def graph_project {RD ID : Type} (m : Mercator) (bp : List Coord)
    (st : SplitState RD ID) : Graph RD ID :=
  { roads := st.roads.map (road_to_mercator m),
    intersections := st.intersections.map (inter_to_mercator m),
    mercator := m,
    boundary_polygon := bp }

/-- osm-graph/src/scrape.rs lines 16-77: `Graph::new`, taking the parsed
element stream.  After `split_edges`, the WGS84 geometry collection is the
road linestrings followed by the intersection points;
`Mercator::from(collection.clone()).unwrap()` panics when the collection is
empty; then every road linestring and intersection point is reprojected in
place and the boundary polygon is the hull of the reprojected collection. -/
def graph_new {RD ID : Type} (elements : List Element) (keep_road : Tags → Bool)
    (mkRD : Tags → RD) (mkID : Unit → ID) : Except BuildFailure (Graph RD ID) :=
  let scanned := scan_elements keep_road elements
  match split_edges scanned.1 scanned.2 mkRD mkID with
  | .error e => .error e
  | .ok st =>
    let collection : List Coord :=
      (st.roads.map (fun r => r.linestring)).flatten
        ++ st.intersections.map (fun i => i.point)
    match Mercator.from_collection collection with
    | none => .error (.panicked "called Option unwrap on a None value")
    | some mercator =>
      .ok (graph_project mercator
        (convex_hull (collection.map mercator.pt_to_mercator)) st)

/-- osm-graph/src/graph.rs lines 73-82: `find_edge`, a linear scan of
`intersections[i1.0].roads` returning the first road having i2 as an
endpoint.  The Rust vector indexings cannot fail on a well-formed graph; a
failed lookup is modelled as skipping. -/
def find_edge {RD ID : Type} (g : Graph RD ID) (i1 i2 : IntersectionID) :
    Option (Road RD) :=
  match g.intersections[i1.val]? with
  | none => none
  | some int =>
    int.roads.findSome? (fun r =>
      match g.roads[r.val]? with
      | none => none
      | some road =>
        if road.src_i = i2 ∨ road.dst_i = i2 then some road else none)

/-- osm-graph/src/node_map.rs `NodeMap<T>`: a bidirectional map between a
custom id type and dense fast_paths node ids.  The BTreeMap is modelled as an
association list (keys are inserted at most once). -/
structure NodeMap (T : Type) where
  node_to_id : List (T × Nat)
  id_to_node : List T
deriving DecidableEq, Repr

/-- node_map.rs `NodeMap::new`. -/
def NodeMap.new {T : Type} : NodeMap T :=
  { node_to_id := [], id_to_node := [] }

/-- node_map.rs `get_or_insert`: return the existing id, or assign the next
dense id (the current length of `id_to_node`). -/
def NodeMap.get_or_insert {T : Type} [DecidableEq T] (m : NodeMap T) (node : T) :
    NodeMap T × Nat :=
  match alookup m.node_to_id node with
  | some id => (m, id)
  | none =>
    let id := m.id_to_node.length
    ({ node_to_id := (node, id) :: m.node_to_id,
       id_to_node := m.id_to_node ++ [node] }, id)

/-- node_map.rs `get`. -/
def NodeMap.get {T : Type} [DecidableEq T] (m : NodeMap T) (node : T) : Option Nat :=
  alookup m.node_to_id node

/-- node_map.rs `translate_id`: `self.id_to_node[id]` (the claims only apply
it to ids the map handed out, where the index is in range). -/
def NodeMap.translate_id {T : Type} [Inhabited T] (m : NodeMap T) (id : Nat) : T :=
  m.id_to_node.getD id default

/-- backend/src/lib.rs `RoadData`: the per-road payload. -/
structure RoadData where
  tags : Tags
  kind : RoadKind
deriving DecidableEq, Repr

/-- backend/src/lib.rs lines 70-79: the graph-construction part of
`MapModel::new` — `Graph::new` instantiated with the classifier as the keep
predicate and payload factory.  The `unwrap` in the factory cannot fire
because the factory is only applied to kept ways; it is modelled by a
default that is never used. -/
def map_model_new (elements : List Element)
    (import_streets_without_sidewalk_tagging : Bool) :
    Except BuildFailure (Graph RoadData Unit) :=
  graph_new elements
    (fun tags => (classify tags import_streets_without_sidewalk_tagging).isSome)
    (fun tags => { tags := tags,
                   kind := (classify tags import_streets_without_sidewalk_tagging).getD
                     .Severance })
    (fun _ => ())

/-- A JSON property value as emitted by `to_gj`: `id` is a number, everything
else a string. -/
inductive JsonValue where
  | num (n : Nat)
  | str (s : String)
deriving DecidableEq, Repr

/-- geojson `Feature::set_property` (external collaborator, a serde_json map
insert): overwrite the value when the key is present, append otherwise. -/
def set_property : List (String × JsonValue) → String → JsonValue →
    List (String × JsonValue)
  | [], k, v => [(k, v)]
  | p :: rest, k, v =>
    if p.1 = k then (k, v) :: rest else p :: set_property rest k v

/-- A GeoJSON LineString feature as built by `to_gj`: geometry plus property
map. -/
structure Feature where
  geometry : List Coord
  properties : List (String × JsonValue)
deriving DecidableEq, Repr

/-- backend/src/lib.rs lines 171-184: `Road::to_gj`.  The geometry is the
linestring reprojected to WGS84; properties are set in source order: id, kind
(its Debug string), way, node1, node2 (as strings), then every tag pair. -/
def to_gj (mercator : Mercator) (r : Road RoadData) : Feature :=
  let props := set_property [] "id" (.num r.id.val)
  let props := set_property props "kind" (.str r.data.kind.debug_str)
  let props := set_property props "way" (.str (toString r.way))
  let props := set_property props "node1" (.str (toString r.node1))
  let props := set_property props "node2" (.str (toString r.node2))
  let props := r.data.tags.pairs.foldl
    (fun ps kv => set_property ps kv.1 (.str kv.2)) props
  { geometry := r.linestring.map mercator.to_wgs84_pt, properties := props }

/-- backend/src/lib.rs lines 96-106: `render` — one feature per road, in the
roads vector's order (the JSON serialisation boundary is out of scope, so the
result is the feature list). -/
def render (g : Graph RoadData Unit) : List Feature :=
  g.roads.map (fun r => to_gj g.mercator r)

/-! Spec-side (declarative) descriptions used to state the claims. -/

/-- The projection of a road that identifies its place in the original way:
its endpoint OSM node ids and its polyline. -/
def road_shape {RD : Type} (r : Road RD) : NodeID × NodeID × List Coord :=
  (r.node1, r.node2, r.linestring)

/-- Consecutive pairs of a list: zipConsec [a,b,c] = [(a,b),(b,c)]. -/
def zipConsec {α : Type} (l : List α) : List (α × α) :=
  l.zip l.tail

/-- Total lookup of a node's WGS84 coordinate (junk default, used only under
the hypothesis that the node is mapped). -/
def coord_of (nm : List (NodeID × Coord)) (n : NodeID) : Coord :=
  (alookup nm n).getD (0, 0)

/-- The positions of a way's node sequence at which the code's endpoint test
holds. -/
def boundary_positions (counter : NodeID → Nat) (ns : List NodeID) : List Nat :=
  (List.range ns.length).filter
    (fun idx => is_endpoint counter ns.length idx (ns.getD idx 0))

/-- The segment carved out of a node sequence by a pair of positions: the OSM
node ids at the two positions and the inclusive slice of node coordinates
between them. -/
def seg_of (nm : List (NodeID × Coord)) (ns : List NodeID) (p : Nat × Nat) :
    NodeID × NodeID × List Coord :=
  (ns.getD p.1 0, ns.getD p.2 0, ((ns.drop p.1).take (p.2 - p.1 + 1)).map (coord_of nm))

/-- The declarative splitting of a way: one segment for each consecutive pair
of boundary positions, carrying the OSM node ids at the two positions and the
inclusive slice of node coordinates between them. -/
def way_segments (nm : List (NodeID × Coord)) (counter : NodeID → Nat)
    (ns : List NodeID) : List (NodeID × NodeID × List Coord) :=
  (zipConsec (boundary_positions counter ns)).map (seg_of nm ns)

/-- Number of distinct kept ways whose node list mentions n — the spec's
notion "referenced by ≥ 2 kept ways" (unlike the code's `node_counter`, an
occurrence count). -/
def ways_referencing (ways : List Way) (n : NodeID) : Nat :=
  (ways.filter (fun w => n ∈ w.node_ids)).length

/-- A road joins the unordered pair of intersections i1 and i2. -/
abbrev connects {RD : Type} (r : Road RD) (i1 i2 : IntersectionID) : Prop :=
  (r.src_i = i1 ∧ r.dst_i = i2) ∨ (r.src_i = i2 ∧ r.dst_i = i1)

/-- Prepending every first occurrence: the distinct values of a list in
first-appearance order. -/
def firstOccurrences {T : Type} [DecidableEq T] (ops : List T) : List T :=
  ops.foldl (fun acc t => if t ∈ acc then acc else acc ++ [t]) []

/-- Folding `get_or_insert` over a list of values from the empty node map:
an arbitrary mutation sequence (get and translate_id do not mutate). -/
def NodeMap.run {T : Type} [DecidableEq T] (ops : List T) : NodeMap T :=
  ops.foldl (fun m t => (m.get_or_insert t).1) NodeMap.new

/-- The bidirectional-map invariant of NodeMap: the forward map sends t to id
exactly when the dense vector holds t at position id. -/
def NodeMapWF {T : Type} [DecidableEq T] (m : NodeMap T) : Prop :=
  ∀ (t : T) (id : Nat), alookup m.node_to_id t = some id ↔ m.id_to_node[id]? = some t

/-! Concrete inputs used by the counterexamples and witnesses. -/

/-- Trivial road payload factory for generic-graph examples. -/
def unit_rd : Tags → Unit := fun _ => ()

/-- Trivial intersection payload factory for generic-graph examples. -/
def unit_id : Unit → Unit := fun _ => ()

/-- Keep every way (generic-graph examples bypass the classifier). -/
def keep_all : Tags → Bool := fun _ => true

/-- The empty splitting state: the fold's initial accumulator in
`split_edges`. -/
def st_empty {RD ID : Type} : SplitState RD ID :=
  { node_to_intersection := [], intersections := [], roads := [] }

/-- Node table used by the way-splitting examples. -/
def nm_abc : List (NodeID × Coord) := [(1, (0, 0)), (2, (10, 0)), (3, (20, 0))]

/-- The tag bag of claim C1: highway=residential with foot=no. -/
def tags_resi_foot_no : Tags := ⟨[("highway", "residential"), ("foot", "no")]⟩

/-- The way of the C2 counterexample: node 2 occurs twice (consecutively, at
interior positions 1 and 2) in the single kept way 1-2-2-3. -/
def way_1223 : Way := { id := 7, node_ids := [1, 2, 2, 3], tags := ⟨[]⟩ }

/-- The way of the C6 counterexample: the closed loop 1-2-3-2-1 (first node
equals last node) whose interior node 2 repeats but is shared with no other
kept way. -/
def way_12321 : Way := { id := 8, node_ids := [1, 2, 3, 2, 1], tags := ⟨[]⟩ }

/-- The way of the C6 witness: the simple closed loop 1-2-3-1. -/
def way_1231 : Way := { id := 9, node_ids := [1, 2, 3, 1], tags := ⟨[]⟩ }

/-- A second kept way for the C6 witness: it shares the loop's endpoint node
1 (allowed) but none of the loop's interior nodes. -/
def way_14 : Way := { id := 10, node_ids := [1, 4], tags := ⟨[]⟩ }

/-- The element stream of the C7 counterexample and of several witnesses: the
edge 1-2 and the self-loop 1-3-1 share the intersection at node 1. -/
def elems_find : List Element :=
  [.node 1 0 0, .node 2 10 0, .node 3 20 0,
   .way 40 [1, 2] ⟨[]⟩, .way 41 [1, 3, 1] ⟨[]⟩]

/-- The graph `graph_new` builds from `elems_find` (checked by evaluation in
the witnesses). -/
def gE7 : Graph Unit Unit :=
  { roads := [mk_road ⟨0⟩ ⟨0⟩ ⟨1⟩ 40 1 2 [(0, 0), (10, 0)] (), mk_road ⟨1⟩ ⟨0⟩ ⟨0⟩ 41 1 1 [(0, 0), (20, 0), (0, 0)] ()],
    intersections := [⟨⟨0⟩, [⟨0⟩, ⟨1⟩, ⟨1⟩], 1, (0, 0), ()⟩, ⟨⟨1⟩, [⟨0⟩], 2, (10, 0), ()⟩],
    mercator := ⟨0, 0, 20, 0⟩,
    boundary_polygon := [(0, 0), (10, 0), (0, 0), (20, 0), (0, 0), (0, 0), (10, 0)] }

/-- The self-loop road of `gE7`. -/
def roadE7_loop : Road Unit :=
  mk_road ⟨1⟩ ⟨0⟩ ⟨0⟩ 41 1 1 [(0, 0), (20, 0), (0, 0)] ()

/-- The ordinary edge of `gE7`. -/
def roadE7_edge : Road Unit :=
  mk_road ⟨0⟩ ⟨0⟩ ⟨1⟩ 40 1 2 [(0, 0), (10, 0)] ()

/-- The element stream of the C9 witness: one kept footway whose tag keys do
not collide with the five built-in property names. -/
def elems_render : List Element :=
  [.node 1 0 0, .node 2 10 0,
   .way 60 [1, 2] ⟨[("highway", "footway"), ("surface", "asphalt")]⟩]

/-- The element stream of the C9 counterexample: one kept footway carrying
the OSM tag `kind=X`, which collides with the built-in `kind` property. -/
def elems_c9x : List Element :=
  [.node 1 0 0, .node 2 10 0,
   .way 61 [1, 2] ⟨[("highway", "footway"), ("kind", "X")]⟩]

/-- The payload of the single road of `gC9`. -/
def rdC9 : RoadData :=
  { tags := ⟨[("highway", "footway"), ("surface", "asphalt")]⟩,
    kind := RoadKind.Footway }

/-- The road of `gC9`. -/
def roadC9 : Road RoadData :=
  mk_road ⟨0⟩ ⟨0⟩ ⟨1⟩ 60 1 2 [(0, 0), (10, 0)] rdC9

/-- The graph `map_model_new` builds from `elems_render` (checked by
evaluation in the witness). -/
def gC9 : Graph RoadData Unit :=
  { roads := [roadC9],
    intersections := [⟨⟨0⟩, [⟨0⟩], 1, (0, 0), ()⟩, ⟨⟨1⟩, [⟨0⟩], 2, (10, 0), ()⟩],
    mercator := ⟨0, 0, 10, 0⟩,
    boundary_polygon := [(0, 0), (10, 0), (0, 0), (10, 0)] }

/-- The well-formedness invariant threaded through `split_edges`, relative to
the node table nm.  It packages the spec's structural invariants: dense ids,
cross-references between roads and intersections, sorted adjacency lists,
linestring endpoints anchored at the endpoint intersections' points, and the
doubled adjacency entry of a self-loop. -/
structure SplitWF {RD ID : Type} (nm : List (NodeID × Coord))
    (st : SplitState RD ID) : Prop where
  road_id : ∀ (j : Nat) (r : Road RD), st.roads[j]? = some r → r.id = ⟨j⟩
  inter_id : ∀ (j : Nat) (i : Intersection ID), st.intersections[j]? = some i → i.id = ⟨j⟩
  map_sound : ∀ (n : NodeID) (iid : IntersectionID),
    alookup st.node_to_intersection n = some iid →
    ∃ i : Intersection ID, st.intersections[iid.val]? = some i ∧ i.node = n
  inter_point : ∀ (j : Nat) (i : Intersection ID), st.intersections[j]? = some i →
    alookup nm i.node = some i.point
  inter_roads : ∀ (j : Nat) (i : Intersection ID), st.intersections[j]? = some i →
    ∀ rid ∈ i.roads,
    ∃ r : Road RD, st.roads[rid.val]? = some r ∧ (r.src_i = ⟨j⟩ ∨ r.dst_i = ⟨j⟩)
  roads_sorted : ∀ (j : Nat) (i : Intersection ID), st.intersections[j]? = some i →
    i.roads.Pairwise (fun a b => a.val ≤ b.val)
  road_src : ∀ (j : Nat) (r : Road RD), st.roads[j]? = some r →
    ∃ i : Intersection ID, st.intersections[r.src_i.val]? = some i ∧ r.id ∈ i.roads
  road_dst : ∀ (j : Nat) (r : Road RD), st.roads[j]? = some r →
    ∃ i : Intersection ID, st.intersections[r.dst_i.val]? = some i ∧ r.id ∈ i.roads
  road_ls_len : ∀ (j : Nat) (r : Road RD), st.roads[j]? = some r → 2 ≤ r.linestring.length
  road_ls_src : ∀ (j : Nat) (r : Road RD), st.roads[j]? = some r →
    ∃ i : Intersection ID, st.intersections[r.src_i.val]? = some i ∧
      r.linestring.head? = some i.point
  road_ls_dst : ∀ (j : Nat) (r : Road RD), st.roads[j]? = some r →
    ∃ i : Intersection ID, st.intersections[r.dst_i.val]? = some i ∧
      r.linestring.getLast? = some i.point
  road_count_self : ∀ (j : Nat) (r : Road RD), st.roads[j]? = some r →
    r.src_i = r.dst_i →
    ∀ i : Intersection ID, st.intersections[r.src_i.val]? = some i →
      i.roads.count r.id = 2
  road_self : ∀ (j : Nat) (r : Road RD), st.roads[j]? = some r →
    r.node1 = r.node2 → r.src_i = r.dst_i

/-- The part of the invariant that survives on the constructed `Graph` (after
the Mercator reprojection, which renames every coordinate by one function and
touches nothing else). -/
structure GraphWF {RD ID : Type} (g : Graph RD ID) : Prop where
  road_id : ∀ (j : Nat) (r : Road RD), g.roads[j]? = some r → r.id = ⟨j⟩
  inter_id : ∀ (j : Nat) (i : Intersection ID), g.intersections[j]? = some i → i.id = ⟨j⟩
  inter_roads : ∀ (j : Nat) (i : Intersection ID), g.intersections[j]? = some i →
    ∀ rid ∈ i.roads,
    ∃ r : Road RD, g.roads[rid.val]? = some r ∧ (r.src_i = ⟨j⟩ ∨ r.dst_i = ⟨j⟩)
  roads_sorted : ∀ (j : Nat) (i : Intersection ID), g.intersections[j]? = some i →
    i.roads.Pairwise (fun a b => a.val ≤ b.val)
  road_src : ∀ (j : Nat) (r : Road RD), g.roads[j]? = some r →
    ∃ i : Intersection ID, g.intersections[r.src_i.val]? = some i ∧ r.id ∈ i.roads
  road_dst : ∀ (j : Nat) (r : Road RD), g.roads[j]? = some r →
    ∃ i : Intersection ID, g.intersections[r.dst_i.val]? = some i ∧ r.id ∈ i.roads
  road_ls_len : ∀ (j : Nat) (r : Road RD), g.roads[j]? = some r → 2 ≤ r.linestring.length
  road_ls_src : ∀ (j : Nat) (r : Road RD), g.roads[j]? = some r →
    ∃ i : Intersection ID, g.intersections[r.src_i.val]? = some i ∧
      r.linestring.head? = some i.point
  road_ls_dst : ∀ (j : Nat) (r : Road RD), g.roads[j]? = some r →
    ∃ i : Intersection ID, g.intersections[r.dst_i.val]? = some i ∧
      r.linestring.getLast? = some i.point
  road_count_self : ∀ (j : Nat) (r : Road RD), g.roads[j]? = some r →
    r.src_i = r.dst_i →
    ∀ i : Intersection ID, g.intersections[r.src_i.val]? = some i →
      i.roads.count r.id = 2
  road_self : ∀ (j : Nat) (r : Road RD), g.roads[j]? = some r →
    r.node1 = r.node2 → r.src_i = r.dst_i

/-! Helper lemmas about the small list operations. -/

theorem alookup_cons {α β : Type} [DecidableEq α] (k : α) (v : β)
    (l : List (α × β)) (a : α) :
    alookup ((k, v) :: l) a = if k = a then some v else alookup l a := rfl

theorem listUpdate_length {α : Type} (l : List α) (n : Nat) (f : α → α) :
    (listUpdate l n f).length = l.length := by
  induction l generalizing n with
  | nil => rfl
  | cons x xs ih =>
    cases n with
    | zero => rfl
    | succ m => simpa [listUpdate] using ih m

theorem listUpdate_getElem? {α : Type} (l : List α) (n : Nat) (f : α → α)
    (m : Nat) :
    (listUpdate l n f)[m]? = if m = n then (l[m]?).map f else l[m]? := by
  induction l generalizing n m with
  | nil => simp [listUpdate]
  | cons x xs ih =>
    cases n with
    | zero =>
      cases m with
      | zero => simp [listUpdate]
      | succ m' => simp [listUpdate]
    | succ n' =>
      cases m with
      | zero => simp [listUpdate]
      | succ m' => simpa [listUpdate] using ih n' m'

theorem ensure_hit {RD ID : Type} (mkID : Unit → ID) (st : SplitState RD ID)
    (n : NodeID) (p : Coord) (i : IntersectionID)
    (h : alookup st.node_to_intersection n = some i) :
    ensure_intersection mkID st n p = (st, i) := by
  unfold ensure_intersection
  rw [h]

theorem ensure_miss {RD ID : Type} (mkID : Unit → ID) (st : SplitState RD ID)
    (n : NodeID) (p : Coord)
    (h : alookup st.node_to_intersection n = none) :
    ensure_intersection mkID st n p =
      ({ st with
          intersections := st.intersections ++
            [{ id := ⟨st.intersections.length⟩, roads := [], node := n, point := p,
               data := mkID () }],
          node_to_intersection :=
            (n, (⟨st.intersections.length⟩ : IntersectionID)) :: st.node_to_intersection },
       ⟨st.intersections.length⟩) := by
  unfold ensure_intersection
  rw [h]

theorem push_road_fields {RD ID : Type} (st : SplitState RD ID)
    (i : IntersectionID) (rid : RoadID) :
    (push_road st i rid).roads = st.roads
    ∧ (push_road st i rid).node_to_intersection = st.node_to_intersection
    ∧ (push_road st i rid).intersections =
        listUpdate st.intersections i.val (fun x => { x with roads := x.roads ++ [rid] }) :=
  ⟨rfl, rfl, rfl⟩

theorem ensure_roads {RD ID : Type} (mkID : Unit → ID) (st : SplitState RD ID)
    (n : NodeID) (p : Coord) :
    (ensure_intersection mkID st n p).1.roads = st.roads := by
  cases h : alookup st.node_to_intersection n
  · rw [ensure_miss mkID st n p h]
  · rw [ensure_hit mkID st n p _ h]

theorem push_road_roads {RD ID : Type} (st : SplitState RD ID)
    (i : IntersectionID) (rid : RoadID) :
    (push_road st i rid).roads = st.roads := rfl

/-- One emission appends exactly one road, whose shape is the (node1, node2,
pts) triple handed to it; the shapes of the previously emitted roads are
untouched. -/
theorem emit_road_shape {RD ID : Type} (mkRD : Tags → RD) (mkID : Unit → ID)
    (wayid : WayID) (tags : Tags) (n1 n2 : NodeID) (pts : List Coord)
    (st : SplitState RD ID) :
    (emit_road mkRD mkID wayid tags n1 n2 pts st).roads.map road_shape
      = st.roads.map road_shape ++ [(n1, n2, pts)] := by
  simp only [emit_road, push_road_roads, ensure_roads, List.map_append,
    List.map_cons, List.map_nil, road_shape]

theorem ensure_maps_self {RD ID : Type} (mkID : Unit → ID) (st : SplitState RD ID)
    (n : NodeID) (p : Coord) :
    alookup (ensure_intersection mkID st n p).1.node_to_intersection n
      = some (ensure_intersection mkID st n p).2 := by
  cases h : alookup st.node_to_intersection n with
  | some i =>
    rw [ensure_hit mkID st n p i h]
    exact h
  | none =>
    rw [ensure_miss mkID st n p h]
    simp [alookup_cons]

/-- One emission appends exactly one road record carrying the handed
(node1, node2, pts) data, and when the two endpoint node ids coincide the
two `ensure_intersection` calls resolve to the same intersection — the
second lookup hits the binding the first one guarantees — so the road is a
self-loop. -/
theorem emit_road_fields2 {RD ID : Type} (mkRD : Tags → RD) (mkID : Unit → ID)
    (wayid : WayID) (tags : Tags) (n1 n2 : NodeID) (pts : List Coord)
    (st : SplitState RD ID) :
    ∃ i1 i2 : IntersectionID,
      (emit_road mkRD mkID wayid tags n1 n2 pts st).roads
        = st.roads ++ [mk_road ⟨st.roads.length⟩ i1 i2 wayid n1 n2 pts (mkRD tags)]
      ∧ (n1 = n2 → i1 = i2) := by
  refine ⟨(ensure_intersection mkID st n1 (pts.headD (0, 0))).2,
    (ensure_intersection mkID
      (push_road (ensure_intersection mkID st n1 (pts.headD (0, 0))).1
        (ensure_intersection mkID st n1 (pts.headD (0, 0))).2
        ⟨st.roads.length⟩) n2 (pts.getLastD (0, 0))).2, ?_, ?_⟩
  · simp only [emit_road, push_road_roads, ensure_roads, mk_road]
  · intro hn
    subst hn
    have h1 : alookup (push_road (ensure_intersection mkID st n1 (pts.headD (0, 0))).1
        (ensure_intersection mkID st n1 (pts.headD (0, 0))).2
        ⟨st.roads.length⟩).node_to_intersection n1
        = some (ensure_intersection mkID st n1 (pts.headD (0, 0))).2 :=
      ensure_maps_self mkID st n1 (pts.headD (0, 0))
    rw [ensure_hit _ _ _ _ _ h1]

theorem emit_road_self_pres {RD ID : Type} (mkRD : Tags → RD) (mkID : Unit → ID)
    (wayid : WayID) (tags : Tags) (n1 n2 : NodeID) (pts : List Coord)
    (st : SplitState RD ID)
    (hst : ∀ r ∈ st.roads, r.node1 = r.node2 → r.src_i = r.dst_i) :
    ∀ r ∈ (emit_road mkRD mkID wayid tags n1 n2 pts st).roads,
      r.node1 = r.node2 → r.src_i = r.dst_i := by
  intro r hr hn
  obtain ⟨i1, i2, hroads, hii⟩ := emit_road_fields2 mkRD mkID wayid tags n1 n2 pts st
  rw [hroads, List.mem_append] at hr
  cases hr with
  | inl h => exact hst r h hn
  | inr h =>
    rw [List.mem_singleton] at h
    subst h
    exact hii hn

theorem way_loop_self_pres {RD ID : Type} {nm : List (NodeID × Coord)}
    {counter : NodeID → Nat} {wayid : WayID} {tags : Tags} {mkRD : Tags → RD}
    {mkID : Unit → ID} {n : Nat} :
    ∀ (rest : List NodeID) (idx : Nat) (node1 : NodeID) (pts : List Coord)
      (st st' : SplitState RD ID),
      (∀ r ∈ st.roads, r.node1 = r.node2 → r.src_i = r.dst_i) →
      way_loop nm counter wayid tags mkRD mkID n rest idx node1 pts st = .ok st' →
      ∀ r ∈ st'.roads, r.node1 = r.node2 → r.src_i = r.dst_i := by
  intro rest
  induction rest with
  | nil =>
    intro idx node1 pts st st' hst hrun
    simp only [way_loop] at hrun
    cases hrun
    exact hst
  | cons node rest ih =>
    intro idx node1 pts st st' hst hrun
    cases hc : alookup nm node with
    | none =>
      simp only [way_loop, hc] at hrun
      cases hrun
    | some c =>
      simp only [way_loop, hc] at hrun
      by_cases hg : (is_endpoint counter n idx node
          && decide ((pts ++ [c]).length > 1)) = true
      · rw [if_pos hg] at hrun
        exact ih _ _ _ _ _
          (emit_road_self_pres mkRD mkID wayid tags node1 node (pts ++ [c]) st hst) hrun
      · rw [if_neg hg] at hrun
        exact ih _ _ _ _ _ hst hrun

theorem process_way_self_pres {RD ID : Type} {nm : List (NodeID × Coord)}
    {counter : NodeID → Nat} {mkRD : Tags → RD} {mkID : Unit → ID}
    {w : Way} {st st' : SplitState RD ID}
    (hst : ∀ r ∈ st.roads, r.node1 = r.node2 → r.src_i = r.dst_i)
    (hrun : process_way nm counter mkRD mkID w st = .ok st') :
    ∀ r ∈ st'.roads, r.node1 = r.node2 → r.src_i = r.dst_i := by
  cases hw : w.node_ids with
  | nil =>
    simp only [process_way, hw] at hrun
    cases hrun
  | cons n0 rest =>
    simp only [process_way, hw] at hrun
    exact way_loop_self_pres _ _ _ _ _ _ hst hrun

theorem zipConsec_cons {α : Type} (a b : α) (l : List α) :
    zipConsec (a :: b :: l) = (a, b) :: zipConsec (b :: l) := rfl

/-- The central refinement of the emission loop: at position k, with the
current segment anchored at boundary position b (node1 is the node at b and
pts is the coordinate slice from b up to and including position k - 1), the
loop succeeds on a fully mapped node list and appends to the roads exactly
one segment per consecutive pair of the remaining boundary positions. -/
theorem way_loop_segments {RD ID : Type} (nm : List (NodeID × Coord))
    (counter : NodeID → Nat) (wayid : WayID) (tags : Tags) (mkRD : Tags → RD)
    (mkID : Unit → ID) (ns : List NodeID)
    (hmap : ∀ x ∈ ns, (alookup nm x).isSome) :
    ∀ (rest : List NodeID) (k b : Nat) (st : SplitState RD ID),
      ns.drop k = rest → b < k → k ≤ ns.length →
      ∃ st' : SplitState RD ID,
        way_loop nm counter wayid tags mkRD mkID ns.length rest k (ns.getD b 0)
          (((ns.drop b).take (k - b)).map (coord_of nm)) st = .ok st'
        ∧ st'.roads.map road_shape = st.roads.map road_shape
            ++ (zipConsec (b :: (List.range' k (ns.length - k)).filter
                (fun idx => is_endpoint counter ns.length idx (ns.getD idx 0)))).map
              (seg_of nm ns) := by
  intro rest
  induction rest with
  | nil =>
    intro k b st hdrop hbk hkn
    have hk : ns.length ≤ k := List.drop_eq_nil_iff.mp hdrop
    have hkeq : k = ns.length := Nat.le_antisymm hkn hk
    refine ⟨st, ?_, ?_⟩
    · simp only [way_loop]
    · subst hkeq
      simp [zipConsec, Nat.sub_self]
  | cons node rest ih =>
    intro k b st hdrop hbk hkn
    have hnsk : ns[k]? = some node := by
      have h0 : (ns.drop k)[0]? = ns[k + 0]? := List.getElem?_drop ns k 0
      rw [hdrop] at h0
      simpa using h0.symm
    have hklt : k < ns.length := by
      obtain ⟨hlt, -⟩ := List.getElem?_eq_some_iff.mp hnsk
      exact hlt
    have hdrop' : ns.drop (k + 1) = rest := by
      rw [← List.tail_drop, hdrop]
      rfl
    have hgetk : ns.getD k 0 = node := by
      rw [List.getD_eq_getElem?_getD, hnsk]
      rfl
    have hmemk : node ∈ ns := List.mem_iff_getElem?.mpr ⟨k, hnsk⟩
    obtain ⟨c, hc⟩ := Option.isSome_iff_exists.mp (hmap node hmemk)
    have hck : coord_of nm node = c := by unfold coord_of; rw [hc]; rfl
    have hlen_take : (((ns.drop b).take (k - b)).map (coord_of nm)).length = k - b := by
      simp only [List.length_map, List.length_take, List.length_drop]
      omega
    have hidx : b + (k - b) = k := Nat.add_sub_cancel' (Nat.le_of_lt hbk)
    have hslice : (ns.drop b)[k - b]? = some node := by
      rw [List.getElem?_drop, hidx, hnsk]
    have hpts_app : ((ns.drop b).take (k - b)).map (coord_of nm) ++ [c]
        = ((ns.drop b).take (k - b + 1)).map (coord_of nm) := by
      rw [List.take_succ, hslice]
      simp [hck]
    have hguard2 : decide
        ((((ns.drop b).take (k - b)).map (coord_of nm) ++ [c]).length > 1) = true := by
      rw [decide_eq_true_iff, List.length_append, hlen_take]
      simp only [List.length_cons, List.length_nil]
      omega
    cases hg : is_endpoint counter ns.length k node with
    | true =>
      obtain ⟨st', hrun, hshape⟩ := ih (k + 1) k
        (emit_road mkRD mkID wayid tags (ns.getD b 0) node
          (((ns.drop b).take (k - b)).map (coord_of nm) ++ [c]) st)
        hdrop' (Nat.lt_succ_self k) hklt
      have hpts1 : ((ns.drop k).take (k + 1 - k)).map (coord_of nm) = [c] := by
        rw [show k + 1 - k = 1 from by omega, hdrop]
        simp [hck]
      rw [hgetk, hpts1] at hrun
      have hnk : ns.length - k = ns.length - (k + 1) + 1 := by omega
      have hfilter : (List.range' k (ns.length - k)).filter
            (fun idx => is_endpoint counter ns.length idx (ns.getD idx 0))
          = k :: (List.range' (k + 1) (ns.length - (k + 1))).filter
            (fun idx => is_endpoint counter ns.length idx (ns.getD idx 0)) := by
        rw [hnk, List.range'_succ, List.filter_cons]
        simp [hgetk, hnsk, hg]
      refine ⟨st', ?_, ?_⟩
      · have hcond : (is_endpoint counter ns.length k node && decide
            ((((ns.drop b).take (k - b)).map (coord_of nm) ++ [c]).length > 1)) = true := by
          rw [hg, hguard2]
          rfl
        simp only [way_loop, hc]
        rw [if_pos hcond]
        exact hrun
      · have hhead : ((ns.getD b 0, node,
              ((ns.drop b).take (k - b)).map (coord_of nm) ++ [c]) :
            NodeID × NodeID × List Coord) = seg_of nm ns (b, k) := by
          simp only [seg_of]
          rw [hgetk, hpts_app]
        rw [hshape, emit_road_shape, hfilter, zipConsec_cons, List.map_cons, hhead,
          List.append_assoc, List.singleton_append]
    | false =>
      obtain ⟨st', hrun, hshape⟩ := ih (k + 1) b st hdrop' (Nat.lt_succ_of_lt hbk) hklt
      rw [show k + 1 - b = k - b + 1 from by omega, ← hpts_app] at hrun
      have hnk : ns.length - k = ns.length - (k + 1) + 1 := by omega
      have hfilter : (List.range' k (ns.length - k)).filter
            (fun idx => is_endpoint counter ns.length idx (ns.getD idx 0))
          = (List.range' (k + 1) (ns.length - (k + 1))).filter
            (fun idx => is_endpoint counter ns.length idx (ns.getD idx 0)) := by
        rw [hnk, List.range'_succ, List.filter_cons]
        simp [hgetk, hnsk, hg]
      refine ⟨st', ?_, ?_⟩
      · have hcond : ¬((is_endpoint counter ns.length k node && decide
            ((((ns.drop b).take (k - b)).map (coord_of nm) ++ [c]).length > 1)) = true) := by
          rw [hg]
          simp
        simp only [way_loop, hc]
        rw [if_neg hcond]
        exact hrun
      · rw [hshape, hfilter]

/-- Whole-way version of the loop refinement: on a nonempty, fully mapped
node list, `process_way` succeeds and appends exactly the declarative
`way_segments` of the way's node sequence (as road shapes). -/
theorem process_way_segments {RD ID : Type} (nm : List (NodeID × Coord))
    (counter : NodeID → Nat) (mkRD : Tags → RD) (mkID : Unit → ID) (w : Way)
    (st : SplitState RD ID) (hne : w.node_ids ≠ [])
    (hmap : ∀ x ∈ w.node_ids, (alookup nm x).isSome) :
    ∃ st' : SplitState RD ID,
      process_way nm counter mkRD mkID w st = .ok st'
      ∧ st'.roads.map road_shape = st.roads.map road_shape
          ++ way_segments nm counter w.node_ids := by
  obtain ⟨n0, ns0, hw⟩ : ∃ n0 ns0, w.node_ids = n0 :: ns0 := by
    cases h : w.node_ids with
    | nil => exact absurd h hne
    | cons a l => exact ⟨a, l, rfl⟩
  have hmem0 : n0 ∈ w.node_ids := by rw [hw]; exact List.mem_cons_self n0 ns0
  obtain ⟨c0, hc0⟩ := Option.isSome_iff_exists.mp (hmap n0 hmem0)
  have hck0 : coord_of nm n0 = c0 := by unfold coord_of; rw [hc0]; rfl
  have hbp : boundary_positions counter (n0 :: ns0)
      = 0 :: (List.range' 1 ns0.length).filter
          (fun idx => is_endpoint counter (ns0.length + 1) idx ((n0 :: ns0).getD idx 0)) := by
    unfold boundary_positions
    simp only [List.length_cons]
    rw [List.range_eq_range', List.range'_succ, List.filter_cons]
    simp [is_endpoint]
  obtain ⟨st', hrun, hshape⟩ := way_loop_segments nm counter w.id w.tags mkRD mkID
    (n0 :: ns0) (by rw [← hw]; exact hmap) ns0 1 0 st rfl Nat.one_pos
    (by simp)
  refine ⟨st', ?_, ?_⟩
  · simp only [process_way, hw, way_loop, hc0, List.nil_append]
    rw [if_neg (by simp)]
    simpa [hck0] using hrun
  · rw [hw]
    unfold way_segments
    rw [hbp]
    simpa using hshape

theorem way_loop_error_panicked {RD ID : Type} {nm : List (NodeID × Coord)}
    {counter : NodeID → Nat} {wayid : WayID} {tags : Tags} {mkRD : Tags → RD}
    {mkID : Unit → ID} {n : Nat} :
    ∀ (rest : List NodeID) (idx : Nat) (node1 : NodeID) (pts : List Coord)
      (st : SplitState RD ID) (e : BuildFailure),
      way_loop nm counter wayid tags mkRD mkID n rest idx node1 pts st = .error e →
      ∃ msg : String, e = .panicked msg := by
  intro rest
  induction rest with
  | nil =>
    intro idx node1 pts st e hrun
    simp only [way_loop] at hrun
    cases hrun
  | cons node rest ih =>
    intro idx node1 pts st e hrun
    cases hc : alookup nm node with
    | none =>
      simp only [way_loop, hc] at hrun
      exact ⟨"no entry found for key", (Except.error.inj hrun).symm⟩
    | some c =>
      simp only [way_loop, hc] at hrun
      by_cases hg : (is_endpoint counter n idx node
          && decide ((pts ++ [c]).length > 1)) = true
      · rw [if_pos hg] at hrun
        exact ih _ _ _ _ _ hrun
      · rw [if_neg hg] at hrun
        exact ih _ _ _ _ _ hrun

theorem way_loop_ok_mapped {RD ID : Type} {nm : List (NodeID × Coord)}
    {counter : NodeID → Nat} {wayid : WayID} {tags : Tags} {mkRD : Tags → RD}
    {mkID : Unit → ID} {n : Nat} :
    ∀ (rest : List NodeID) (idx : Nat) (node1 : NodeID) (pts : List Coord)
      (st st' : SplitState RD ID),
      way_loop nm counter wayid tags mkRD mkID n rest idx node1 pts st = .ok st' →
      ∀ x ∈ rest, (alookup nm x).isSome := by
  intro rest
  induction rest with
  | nil =>
    intro idx node1 pts st st' _ x hx
    cases hx
  | cons node rest ih =>
    intro idx node1 pts st st' hrun x hx
    cases hc : alookup nm node with
    | none =>
      simp only [way_loop, hc] at hrun
      cases hrun
    | some c =>
      cases hx with
      | head =>
        rw [hc]
        rfl
      | tail _ hx =>
        simp only [way_loop, hc] at hrun
        by_cases hg : (is_endpoint counter n idx node
            && decide ((pts ++ [c]).length > 1)) = true
        · rw [if_pos hg] at hrun
          exact ih _ _ _ _ _ hrun x hx
        · rw [if_neg hg] at hrun
          exact ih _ _ _ _ _ hrun x hx

theorem process_way_error_panicked {RD ID : Type} {nm : List (NodeID × Coord)}
    {counter : NodeID → Nat} {mkRD : Tags → RD} {mkID : Unit → ID}
    {w : Way} {st : SplitState RD ID} {e : BuildFailure}
    (hrun : process_way nm counter mkRD mkID w st = .error e) :
    ∃ msg : String, e = .panicked msg := by
  cases hw : w.node_ids with
  | nil =>
    simp only [process_way, hw] at hrun
    exact ⟨"index out of bounds", (Except.error.inj hrun).symm⟩
  | cons n0 rest =>
    simp only [process_way, hw] at hrun
    exact way_loop_error_panicked _ _ _ _ _ _ hrun

theorem process_way_ok_mapped {RD ID : Type} {nm : List (NodeID × Coord)}
    {counter : NodeID → Nat} {mkRD : Tags → RD} {mkID : Unit → ID}
    {w : Way} {st st' : SplitState RD ID}
    (hrun : process_way nm counter mkRD mkID w st = .ok st') :
    ∀ x ∈ w.node_ids, (alookup nm x).isSome := by
  cases hw : w.node_ids with
  | nil =>
    intro x hx
    cases hx
  | cons n0 rest =>
    simp only [process_way, hw] at hrun
    exact way_loop_ok_mapped _ _ _ _ _ _ hrun

theorem foldl_process_error_panicked {RD ID : Type} {nm : List (NodeID × Coord)}
    {counter : NodeID → Nat} {mkRD : Tags → RD} {mkID : Unit → ID} :
    ∀ (ways : List Way) (st : SplitState RD ID) (e : BuildFailure),
      ways.foldlM (fun st w => process_way nm counter mkRD mkID w st) st = .error e →
      ∃ msg : String, e = .panicked msg := by
  intro ways
  induction ways with
  | nil =>
    intro st e hrun
    simp only [List.foldlM_nil] at hrun
    cases hrun
  | cons w ways ih =>
    intro st e hrun
    simp only [List.foldlM_cons] at hrun
    cases hp : process_way nm counter mkRD mkID w st with
    | error e2 =>
      rw [hp] at hrun
      have h2 : (Except.error e2 : Except BuildFailure (SplitState RD ID)) = .error e := hrun
      obtain ⟨msg, hmsg⟩ := process_way_error_panicked hp
      refine ⟨msg, ?_⟩
      rw [← Except.error.inj h2]
      exact hmsg
    | ok st1 =>
      rw [hp] at hrun
      exact ih st1 e hrun

theorem split_edges_error_panicked {RD ID : Type} {nm : List (NodeID × Coord)}
    {ways : List Way} {mkRD : Tags → RD} {mkID : Unit → ID} {e : BuildFailure}
    (hrun : split_edges nm ways mkRD mkID = .error e) :
    ∃ msg : String, e = .panicked msg :=
  foldl_process_error_panicked ways _ e hrun

theorem foldl_process_ok_mapped {RD ID : Type} {nm : List (NodeID × Coord)}
    {counter : NodeID → Nat} {mkRD : Tags → RD} {mkID : Unit → ID} :
    ∀ (ways : List Way) (st st' : SplitState RD ID),
      ways.foldlM (fun st w => process_way nm counter mkRD mkID w st) st = .ok st' →
      ∀ w ∈ ways, ∀ x ∈ w.node_ids, (alookup nm x).isSome := by
  intro ways
  induction ways with
  | nil =>
    intro st st' _ w hw
    cases hw
  | cons w0 ways ih =>
    intro st st' hrun w hw
    simp only [List.foldlM_cons] at hrun
    cases hp : process_way nm counter mkRD mkID w0 st with
    | error e2 =>
      rw [hp] at hrun
      have hcon : (Except.error e2 : Except BuildFailure (SplitState RD ID)) = .ok st' := hrun
      cases hcon
    | ok st1 =>
      rw [hp] at hrun
      cases hw with
      | head => exact process_way_ok_mapped hp
      | tail _ hw => exact ih st1 st' hrun w hw

theorem split_edges_ok_mapped {RD ID : Type} {nm : List (NodeID × Coord)}
    {ways : List Way} {mkRD : Tags → RD} {mkID : Unit → ID}
    {st' : SplitState RD ID}
    (hrun : split_edges nm ways mkRD mkID = .ok st') :
    ∀ w ∈ ways, ∀ x ∈ w.node_ids, (alookup nm x).isSome :=
  foldl_process_ok_mapped ways _ st' hrun

theorem headD_of_head? {α : Type} {l : List α} {a : α} (d : α)
    (h : l.head? = some a) : l.headD d = a := by
  cases l with
  | nil => simp at h
  | cons x xs => simp_all

theorem getLastD_of_getLast? {α : Type} {l : List α} {a : α} (d : α)
    (h : l.getLast? = some a) : l.getLastD d = a := by
  rw [List.getLastD_eq_getLast?, h]
  rfl

/-- Combined effect of one `ensure_intersection` followed by
`intersection.roads.push(road_id)`: the roads vector is untouched, the node
map gains (or already had) the binding for n, every other intersection is
untouched, and the intersection at the returned index has rid appended to its
adjacency list — with its previous state either the existing entry or a fresh
empty intersection at the end of the vector. -/
theorem ensure_push_spec {RD ID : Type} (mkID : Unit → ID) (st : SplitState RD ID)
    (n : NodeID) (p : Coord) (rid : RoadID)
    (hvalid : ∀ i0 : IntersectionID, alookup st.node_to_intersection n = some i0 →
      i0.val < st.intersections.length) :
    ∃ (st2 : SplitState RD ID) (i : IntersectionID),
      push_road (ensure_intersection mkID st n p).1
          (ensure_intersection mkID st n p).2 rid = st2
      ∧ (ensure_intersection mkID st n p).2 = i
      ∧ st2.roads = st.roads
      ∧ (∀ n' : NodeID, alookup st2.node_to_intersection n' =
          if n' = n then some i else alookup st.node_to_intersection n')
      ∧ i.val < st2.intersections.length
      ∧ st.intersections.length ≤ st2.intersections.length
      ∧ st2.intersections.length ≤ st.intersections.length + 1
      ∧ (∀ j : Nat, j ≠ i.val → st2.intersections[j]? = st.intersections[j]?)
      ∧ (∃ prev : Intersection ID,
          st2.intersections[i.val]? = some { prev with roads := prev.roads ++ [rid] }
          ∧ ((st.intersections[i.val]? = some prev
              ∧ alookup st.node_to_intersection n = some i)
             ∨ (st.intersections[i.val]? = none
                ∧ alookup st.node_to_intersection n = none
                ∧ prev = { id := i, roads := [], node := n, point := p, data := mkID () }
                ∧ i.val = st.intersections.length))) := by
  cases h : alookup st.node_to_intersection n with
  | some i0 =>
    have he := ensure_hit mkID st n p i0 h
    have hlt : i0.val < st.intersections.length := hvalid i0 h
    obtain ⟨prev, hprev⟩ : ∃ prev, st.intersections[i0.val]? = some prev :=
      ⟨_, List.getElem?_eq_getElem hlt⟩
    have hst2 : push_road (ensure_intersection mkID st n p).1
        (ensure_intersection mkID st n p).2 rid
        = { st with intersections :=
              listUpdate st.intersections i0.val (add_rid rid) } := by
      rw [he]
      rfl
    refine ⟨_, i0, hst2, by rw [he], rfl, ?_, ?_, ?_, ?_, ?_, ?_⟩
    · intro n'
      show alookup st.node_to_intersection n' = _
      by_cases hn : n' = n
      · subst hn
        rw [if_pos rfl, h]
      · rw [if_neg hn]
    · show i0.val < (listUpdate st.intersections i0.val _).length
      rw [listUpdate_length]
      exact hlt
    · show st.intersections.length ≤ (listUpdate st.intersections i0.val _).length
      rw [listUpdate_length]
    · show (listUpdate st.intersections i0.val _).length ≤ st.intersections.length + 1
      rw [listUpdate_length]
      exact Nat.le_succ _
    · intro j hj
      show (listUpdate st.intersections i0.val _)[j]? = st.intersections[j]?
      rw [listUpdate_getElem?, if_neg hj]
    · refine ⟨prev, ?_, Or.inl ⟨hprev, rfl⟩⟩
      show (listUpdate st.intersections i0.val _)[i0.val]? = _
      rw [listUpdate_getElem?, if_pos rfl, hprev]
      rfl
  | none =>
    have hmiss := ensure_miss mkID st n p h
    have hst2 : push_road (ensure_intersection mkID st n p).1
        (ensure_intersection mkID st n p).2 rid
        = { node_to_intersection :=
              (n, (⟨st.intersections.length⟩ : IntersectionID)) :: st.node_to_intersection,
            intersections := listUpdate
              (st.intersections ++
                [{ id := ⟨st.intersections.length⟩, roads := [], node := n, point := p,
                   data := mkID () }])
              st.intersections.length (add_rid rid),
            roads := st.roads } := by
      rw [hmiss]
      rfl
    refine ⟨_, ⟨st.intersections.length⟩, hst2, by rw [hmiss], rfl, ?_, ?_, ?_, ?_, ?_, ?_⟩
    · intro n'
      show alookup ((n, _) :: st.node_to_intersection) n' = _
      rw [alookup_cons]
      by_cases hn : n' = n
      · subst hn
        simp
      · rw [if_neg (fun hh => hn hh.symm), if_neg hn]
    · show st.intersections.length < (listUpdate _ _ _).length
      rw [listUpdate_length, List.length_append]
      simp
    · show st.intersections.length ≤ (listUpdate _ _ _).length
      rw [listUpdate_length, List.length_append]
      simp
    · show (listUpdate _ _ _).length ≤ st.intersections.length + 1
      rw [listUpdate_length, List.length_append]
      simp
    · intro j hj
      show (listUpdate _ _ _)[j]? = st.intersections[j]?
      rw [listUpdate_getElem?, if_neg hj]
      rcases Nat.lt_or_ge j st.intersections.length with hjlt | hge
      · exact List.getElem?_append_left hjlt
      · have hge2 : st.intersections.length + 1 ≤ j := by
          rcases Nat.eq_or_lt_of_le hge with heq | hlt2
          · exact absurd heq.symm hj
          · exact hlt2
        rw [List.getElem?_eq_none (by simpa using hge2),
          List.getElem?_eq_none (Nat.le_of_succ_le hge2)]
    · refine ⟨_, ?_, Or.inr ⟨List.getElem?_eq_none (Nat.le_refl _), rfl, rfl, rfl⟩⟩
      show (listUpdate _ _ _)[st.intersections.length]? = _
      rw [listUpdate_getElem?, if_pos rfl, List.getElem?_concat_length]
      rfl

theorem iid_val_ne {i1 i2 : IntersectionID} (h : i1 ≠ i2) : i1.val ≠ i2.val := by
  intro hv
  apply h
  cases i1
  cases i2
  cases hv
  rfl

/-- Description of one full road emission (scrape.rs lines 114-147) relative
to the starting state: the allocated road is appended with the resolved
endpoint intersections; the two endpoint intersections coincide exactly when
the endpoint OSM nodes coincide; all other intersections are untouched; the
endpoint intersections gain the new road id at the end of their adjacency
lists (twice for a self-loop); the node map gains the two bindings. -/
theorem emit_descr {RD ID : Type} {nm : List (NodeID × Coord)} (mkRD : Tags → RD)
    (mkID : Unit → ID) (wayid : WayID) (tags : Tags) (n1 n2 : NodeID)
    (p1 p2 : Coord) (pts : List Coord) (st st3 : SplitState RD ID)
    (hwf : SplitWF nm st)
    (hp1 : alookup nm n1 = some p1) (hp2 : alookup nm n2 = some p2)
    (hhead : pts.head? = some p1) (hlast : pts.getLast? = some p2)
    (hem : emit_road mkRD mkID wayid tags n1 n2 pts st = st3) :
    ∃ i1 i2 : IntersectionID,
      st3.roads = st.roads
        ++ [mk_road ⟨st.roads.length⟩ i1 i2 wayid n1 n2 pts (mkRD tags)]
      ∧ (i1 = i2 ↔ n1 = n2)
      ∧ (∀ j : Nat, j ≠ i1.val → j ≠ i2.val →
          st3.intersections[j]? = st.intersections[j]?)
      ∧ (∃ prev1 : Intersection ID,
          st3.intersections[i1.val]? = some { prev1 with roads := prev1.roads
              ++ (if i1 = i2 then [⟨st.roads.length⟩, ⟨st.roads.length⟩]
                  else [⟨st.roads.length⟩]) }
          ∧ prev1.id = i1 ∧ prev1.node = n1 ∧ prev1.point = p1
          ∧ (st.intersections[i1.val]? = some prev1
             ∨ (st.intersections[i1.val]? = none ∧ prev1.roads = [])))
      ∧ (i1 ≠ i2 → ∃ prev2 : Intersection ID,
          st3.intersections[i2.val]? = some { prev2 with
              roads := prev2.roads ++ [⟨st.roads.length⟩] }
          ∧ prev2.id = i2 ∧ prev2.node = n2 ∧ prev2.point = p2
          ∧ (st.intersections[i2.val]? = some prev2
             ∨ (st.intersections[i2.val]? = none ∧ prev2.roads = [])))
      ∧ (∀ n' : NodeID, alookup st3.node_to_intersection n' =
          if n' = n2 then some i2 else if n' = n1 then some i1
          else alookup st.node_to_intersection n')
      ∧ st.intersections.length ≤ st3.intersections.length
      ∧ i1.val < st3.intersections.length
      ∧ i2.val < st3.intersections.length := by
  have hvalid1 : ∀ i0 : IntersectionID, alookup st.node_to_intersection n1 = some i0 →
      i0.val < st.intersections.length := by
    intro i0 h0
    obtain ⟨i', hi', -⟩ := hwf.map_sound n1 i0 h0
    obtain ⟨hlt', -⟩ := List.getElem?_eq_some_iff.mp hi'
    exact hlt'
  obtain ⟨st1, i1, heq1, hi1, hroads1, hmap1, hlt1, hge1, hle1, hother1,
    ⟨prev1, hat1, hstory1⟩⟩ :=
    ensure_push_spec mkID st n1 (pts.headD (0, 0)) ⟨st.roads.length⟩ hvalid1
  have hvalid2 : ∀ i0 : IntersectionID, alookup st1.node_to_intersection n2 = some i0 →
      i0.val < st1.intersections.length := by
    intro i0 h0
    rw [hmap1] at h0
    by_cases hn : n2 = n1
    · rw [if_pos hn] at h0
      cases Option.some.inj h0
      exact hlt1
    · rw [if_neg hn] at h0
      obtain ⟨i', hi', -⟩ := hwf.map_sound n2 i0 h0
      obtain ⟨hlt', -⟩ := List.getElem?_eq_some_iff.mp hi'
      exact Nat.lt_of_lt_of_le hlt' hge1
  obtain ⟨st2, i2, heq2, hi2, hroads2, hmap2, hlt2, hge2, hle2, hother2,
    ⟨prev2, hat2, hstory2⟩⟩ :=
    ensure_push_spec mkID st1 n2 (pts.getLastD (0, 0)) ⟨st.roads.length⟩ hvalid2
  have hst3 : st3 = { st2 with roads := st2.roads
      ++ [mk_road ⟨st.roads.length⟩ i1 i2 wayid n1 n2 pts (mkRD tags)] } := by
    rw [← hem]
    show emit_road mkRD mkID wayid tags n1 n2 pts st = _
    simp only [emit_road, mk_road]
    rw [heq1, hi1, heq2, hi2]
  have hprev1 : prev1.id = i1 ∧ prev1.node = n1 ∧ prev1.point = p1
      ∧ (st.intersections[i1.val]? = some prev1
         ∨ (st.intersections[i1.val]? = none ∧ prev1.roads = [])) := by
    rcases hstory1 with ⟨hsome, hlook⟩ | ⟨hnone, hlook, hfresh, hlen⟩
    · obtain ⟨i', hi', hnode⟩ := hwf.map_sound n1 i1 hlook
      have hip : i' = prev1 := by
        rw [hsome] at hi'
        exact (Option.some.inj hi').symm
      refine ⟨hwf.inter_id i1.val prev1 hsome, ?_, ?_, Or.inl hsome⟩
      · rw [← hip]
        exact hnode
      · have hpt := hwf.inter_point i1.val prev1 hsome
        rw [hip] at hnode
        rw [hnode, hp1] at hpt
        exact (Option.some.inj hpt).symm
    · subst hfresh
      exact ⟨rfl, rfl, headD_of_head? (0, 0) hhead, Or.inr ⟨hnone, rfl⟩⟩
  obtain ⟨hid1, hnode1, hpt1, hbase1⟩ := hprev1
  by_cases hnn : n1 = n2
  · -- the two endpoint nodes coincide: the second lookup hits the first id
    have hl2 : alookup st1.node_to_intersection n2 = some i1 := by
      rw [hmap1, if_pos hnn.symm]
    rcases hstory2 with ⟨hsome2, hlook2⟩ | ⟨-, hlook2, -, -⟩
    · have hii : i1 = i2 := Option.some.inj ((hl2.symm.trans hlook2))
      have hprev2 : prev2 = { prev1 with
          roads := prev1.roads ++ [(⟨st.roads.length⟩ : RoadID)] } := by
        rw [← hii] at hsome2
        rw [hat1] at hsome2
        exact (Option.some.inj hsome2).symm
      refine ⟨i1, i2, ?_, ?_, ?_, ?_, ?_, ?_, ?_, ?_, ?_⟩
      · rw [hst3]
        show st2.roads ++ _ = _
        rw [hroads2, hroads1]
      · exact ⟨fun _ => hnn, fun _ => hii⟩
      · intro j hj1 _
        rw [hst3]
        show st2.intersections[j]? = _
        rw [hother2 j (by rw [← hii]; exact hj1), hother1 j hj1]
      · refine ⟨prev1, ?_, hid1, hnode1, hpt1, hbase1⟩
        rw [hst3]
        show st2.intersections[i1.val]? = _
        rw [hii, hat2, hprev2]
        simp [List.append_assoc]
      · intro hne
        exact absurd hii hne
      · intro n'
        rw [hst3]
        show alookup st2.node_to_intersection n' = _
        rw [hmap2 n', hmap1 n']
      · rw [hst3]
        show st.intersections.length ≤ st2.intersections.length
        exact Nat.le_trans hge1 hge2
      · rw [hst3]
        show i1.val < st2.intersections.length
        exact Nat.lt_of_lt_of_le hlt1 hge2
      · rw [hst3]
        show i2.val < st2.intersections.length
        exact hlt2
    · rw [hl2] at hlook2
      exact absurd hlook2 (by simp)
  · -- distinct endpoint nodes: the second intersection is distinct
    have hl2 : alookup st1.node_to_intersection n2
        = alookup st.node_to_intersection n2 := by
      rw [hmap1, if_neg (fun hh => hnn hh.symm)]
    rcases hstory2 with ⟨hsome2, hlook2⟩ | ⟨hnone2, hlook2, hfresh2, hlen2⟩
    · -- n2 already had an intersection in st
      rw [hl2] at hlook2
      obtain ⟨int2, hint2, hnode2⟩ := hwf.map_sound n2 i2 hlook2
      have hne : i1 ≠ i2 := by
        intro hEq
        rw [← hEq] at hint2
        rcases hbase1 with hb | ⟨hb, -⟩
        · rw [hb] at hint2
          have : prev1 = int2 := Option.some.inj hint2
          rw [← this] at hnode2
          exact hnn (hnode1.symm.trans hnode2)
        · rw [hb] at hint2
          exact Option.noConfusion hint2
      have hnev : i1.val ≠ i2.val := iid_val_ne hne
      have hst1at2 : st1.intersections[i2.val]? = some int2 := by
        rw [hother1 i2.val (fun hh => hnev hh.symm), hint2]
      have hprev2i : prev2 = int2 := by
        rw [hst1at2] at hsome2
        exact (Option.some.inj hsome2).symm
      refine ⟨i1, i2, ?_, ?_, ?_, ?_, ?_, ?_, ?_, ?_, ?_⟩
      · rw [hst3]
        show st2.roads ++ _ = _
        rw [hroads2, hroads1]
      · exact ⟨fun hh => absurd hh hne, fun hh => absurd hh hnn⟩
      · intro j hj1 hj2
        rw [hst3]
        show st2.intersections[j]? = _
        rw [hother2 j hj2, hother1 j hj1]
      · refine ⟨prev1, ?_, hid1, hnode1, hpt1, hbase1⟩
        rw [hst3]
        show st2.intersections[i1.val]? = _
        rw [hother2 i1.val hnev, hat1, if_neg hne]
      · intro _
        refine ⟨int2, ?_, hwf.inter_id i2.val int2 hint2, hnode2, ?_, Or.inl hint2⟩
        · rw [hst3]
          show st2.intersections[i2.val]? = _
          rw [hat2, hprev2i]
        · have hpt := hwf.inter_point i2.val int2 hint2
          rw [hnode2, hp2] at hpt
          exact (Option.some.inj hpt).symm
      · intro n'
        rw [hst3]
        show alookup st2.node_to_intersection n' = _
        rw [hmap2 n', hmap1 n']
      · rw [hst3]
        show st.intersections.length ≤ st2.intersections.length
        exact Nat.le_trans hge1 hge2
      · rw [hst3]
        show i1.val < st2.intersections.length
        exact Nat.lt_of_lt_of_le hlt1 hge2
      · rw [hst3]
        show i2.val < st2.intersections.length
        exact hlt2
    · -- n2 is fresh: a new intersection is appended
      have hnev : i1.val ≠ i2.val := by
        rw [hlen2]
        exact Nat.ne_of_lt hlt1
      have hne : i1 ≠ i2 := fun hh => hnev (by rw [hh])
      refine ⟨i1, i2, ?_, ?_, ?_, ?_, ?_, ?_, ?_, ?_, ?_⟩
      · rw [hst3]
        show st2.roads ++ _ = _
        rw [hroads2, hroads1]
      · exact ⟨fun hh => absurd hh hne, fun hh => absurd hh hnn⟩
      · intro j hj1 hj2
        rw [hst3]
        show st2.intersections[j]? = _
        rw [hother2 j hj2, hother1 j hj1]
      · refine ⟨prev1, ?_, hid1, hnode1, hpt1, hbase1⟩
        rw [hst3]
        show st2.intersections[i1.val]? = _
        rw [hother2 i1.val hnev, hat1, if_neg hne]
      · intro _
        subst hfresh2
        refine ⟨⟨i2, [], n2, pts.getLastD (0, 0), mkID ()⟩, ?_, rfl, rfl, getLastD_of_getLast? (0, 0) hlast, Or.inr ⟨?_, rfl⟩⟩
        · rw [hst3]
          show st2.intersections[i2.val]? = _
          rw [hat2]
        · refine List.getElem?_eq_none ?_
          rw [hlen2]
          exact hge1
      · intro n'
        rw [hst3]
        show alookup st2.node_to_intersection n' = _
        rw [hmap2 n', hmap1 n']
      · rw [hst3]
        show st.intersections.length ≤ st2.intersections.length
        exact Nat.le_trans hge1 hge2
      · rw [hst3]
        show i1.val < st2.intersections.length
        exact Nat.lt_of_lt_of_le hlt1 hge2
      · rw [hst3]
        show i2.val < st2.intersections.length
        exact hlt2

theorem getElem?_append_single {α : Type} {l : List α} {a : α} {j : Nat} {x : α}
    (h : (l ++ [a])[j]? = some x) :
    (j < l.length ∧ l[j]? = some x) ∨ (j = l.length ∧ x = a) := by
  rcases Nat.lt_trichotomy j l.length with hlt | heq | hgt
  · left
    refine ⟨hlt, ?_⟩
    rw [List.getElem?_append_left hlt] at h
    exact h
  · right
    subst heq
    rw [List.getElem?_concat_length] at h
    exact ⟨rfl, (Option.some.inj h).symm⟩
  · exfalso
    rw [List.getElem?_eq_none (by simp [List.length_append]; omega)] at h
    exact Option.noConfusion h

theorem count_zero_of_lt {l : List RoadID} {N : Nat}
    (h : ∀ x ∈ l, x.val < N) : l.count (⟨N⟩ : RoadID) = 0 :=
  List.count_eq_zero.mpr (fun hm => Nat.lt_irrefl N (h _ hm))

/-- One road emission preserves the split-state invariant. -/
theorem emit_wf {RD ID : Type} {nm : List (NodeID × Coord)} {mkRD : Tags → RD}
    {mkID : Unit → ID} {wayid : WayID} {tags : Tags} {n1 n2 : NodeID}
    {p1 p2 : Coord} {pts : List Coord} {st st3 : SplitState RD ID}
    (hwf : SplitWF nm st)
    (hp1 : alookup nm n1 = some p1) (hp2 : alookup nm n2 = some p2)
    (hhead : pts.head? = some p1) (hlast : pts.getLast? = some p2)
    (hlen : 2 ≤ pts.length)
    (hem : emit_road mkRD mkID wayid tags n1 n2 pts st = st3) :
    SplitWF nm st3 := by
  obtain ⟨i1, i2, hroads, hiff, hupd, ⟨prev1, hat1, hid1, hnode1, hpt1, hbase1⟩,
    hat2e, hmap3, hgelen, hlt1, hlt2⟩ :=
    emit_descr mkRD mkID wayid tags n1 n2 p1 p2 pts st st3 hwf hp1 hp2 hhead hlast hem
  have hpp : n1 = n2 → p1 = p2 := by
    intro h
    rw [h] at hp1
    exact Option.some.inj (hp1.symm.trans hp2)
  have hRN : st3.roads[st.roads.length]?
      = some (mk_road ⟨st.roads.length⟩ i1 i2 wayid n1 n2 pts (mkRD tags)) := by
    rw [hroads]
    exact List.getElem?_concat_length _ _
  have hRold : ∀ j : Nat, j < st.roads.length → st3.roads[j]? = st.roads[j]? := by
    intro j hj
    rw [hroads]
    exact List.getElem?_append_left hj
  have hRcases : ∀ (j : Nat) (r : Road RD), st3.roads[j]? = some r →
      (j < st.roads.length ∧ st.roads[j]? = some r)
      ∨ (j = st.roads.length
         ∧ r = mk_road ⟨st.roads.length⟩ i1 i2 wayid n1 n2 pts (mkRD tags)) := by
    intro j r h
    rw [hroads] at h
    exact getElem?_append_single h
  have hprev1_mem : ∀ x ∈ prev1.roads,
      ∃ r : Road RD, st.roads[x.val]? = some r
        ∧ (r.src_i = ⟨i1.val⟩ ∨ r.dst_i = ⟨i1.val⟩) := by
    rcases hbase1 with hb | ⟨-, hb⟩
    · exact hwf.inter_roads i1.val prev1 hb
    · intro x hx
      rw [hb] at hx
      cases hx
  have hprev1_lt : ∀ x ∈ prev1.roads, x.val < st.roads.length := by
    intro x hx
    obtain ⟨r, hr, -⟩ := hprev1_mem x hx
    obtain ⟨hl, -⟩ := List.getElem?_eq_some_iff.mp hr
    exact hl
  have hprev1_sorted : prev1.roads.Pairwise (fun a b : RoadID => a.val ≤ b.val) := by
    rcases hbase1 with hb | ⟨-, hb⟩
    · exact hwf.roads_sorted i1.val prev1 hb
    · rw [hb]
      exact List.Pairwise.nil
  -- the appended tail of the first endpoint's adjacency list
  have htail1 : ∀ x : RoadID,
      x ∈ (if i1 = i2 then [(⟨st.roads.length⟩ : RoadID), ⟨st.roads.length⟩]
           else [(⟨st.roads.length⟩ : RoadID)]) → x = ⟨st.roads.length⟩ := by
    intro x hx
    by_cases hii : i1 = i2 <;> simp [hii] at hx <;> simp [hx]
  have htail1_mem : (⟨st.roads.length⟩ : RoadID)
      ∈ (if i1 = i2 then [(⟨st.roads.length⟩ : RoadID), ⟨st.roads.length⟩]
         else [(⟨st.roads.length⟩ : RoadID)]) := by
    by_cases hii : i1 = i2 <;> simp [hii]
  -- analysis of an intersection of st3
  have hInter : ∀ (j : Nat) (i : Intersection ID), st3.intersections[j]? = some i →
      (j ≠ i1.val ∧ j ≠ i2.val ∧ st.intersections[j]? = some i)
      ∨ (j = i1.val ∧ i = { prev1 with roads := prev1.roads
          ++ (if i1 = i2 then [⟨st.roads.length⟩, ⟨st.roads.length⟩]
              else [⟨st.roads.length⟩]) })
      ∨ (j = i2.val ∧ i1 ≠ i2 ∧ ∃ prev2 : Intersection ID,
          i = { prev2 with roads := prev2.roads ++ [⟨st.roads.length⟩] }
          ∧ prev2.id = i2 ∧ prev2.node = n2 ∧ prev2.point = p2
          ∧ (st.intersections[i2.val]? = some prev2
             ∨ (st.intersections[i2.val]? = none ∧ prev2.roads = []))) := by
    intro j i h
    by_cases hj1 : j = i1.val
    · subst hj1
      rw [hat1] at h
      exact Or.inr (Or.inl ⟨rfl, (Option.some.inj h).symm⟩)
    · by_cases hj2 : j = i2.val
      · subst hj2
        have hne : i1 ≠ i2 := by
          intro hEq
          exact hj1 (by rw [hEq])
        obtain ⟨prev2, hat2, hid2, hnode2, hpt2, hbase2⟩ := hat2e hne
        rw [hat2] at h
        exact Or.inr (Or.inr ⟨rfl, hne,
          prev2, (Option.some.inj h).symm, hid2, hnode2, hpt2, hbase2⟩)
      · rw [hupd j hj1 hj2] at h
        exact Or.inl ⟨hj1, hj2, h⟩
  constructor
  case road_id =>
    intro j r hget
    rcases hRcases j r hget with ⟨-, hold⟩ | ⟨hj, hr⟩
    · exact hwf.road_id j r hold
    · rw [hr, hj]
      rfl
  case inter_id =>
    intro j i hget
    rcases hInter j i hget with ⟨-, -, hold⟩ | ⟨hj, hi⟩ | ⟨hj, -, prev2, hi, hid2, -, -, -⟩
    · exact hwf.inter_id j i hold
    · rw [hi, hj]
      show prev1.id = _
      rw [hid1]
    · rw [hi, hj]
      show prev2.id = _
      rw [hid2]
  case map_sound =>
    intro n iid hlook
    rw [hmap3] at hlook
    by_cases ha : n = n2
    · rw [if_pos ha] at hlook
      cases Option.some.inj hlook
      by_cases hii : i1 = i2
      · have hn12 : n1 = n2 := hiff.mp hii
        subst hii
        refine ⟨_, hat1, ?_⟩
        show prev1.node = n
        rw [hnode1, hn12, ha]
      · obtain ⟨prev2, hat2, -, hnode2, -, -⟩ := hat2e hii
        refine ⟨_, hat2, ?_⟩
        show prev2.node = n
        rw [hnode2, ha]
    · rw [if_neg ha] at hlook
      by_cases hb : n = n1
      · rw [if_pos hb] at hlook
        cases Option.some.inj hlook
        refine ⟨_, hat1, ?_⟩
        show prev1.node = n
        rw [hnode1, hb]
      · rw [if_neg hb] at hlook
        obtain ⟨int, hint, hnode⟩ := hwf.map_sound n iid hlook
        have hne1 : iid.val ≠ i1.val := by
          intro hEq
          rw [hEq] at hint
          rcases hbase1 with hbb | ⟨hbb, -⟩
          · rw [hbb] at hint
            have hpi : prev1 = int := Option.some.inj hint
            apply hb
            rw [← hnode, ← hpi, hnode1]
          · rw [hbb] at hint
            exact Option.noConfusion hint
        have hne2 : iid.val ≠ i2.val := by
          intro hEq
          by_cases hii : i1 = i2
          · exact hne1 (by rw [hEq, hii])
          · obtain ⟨prev2, -, -, hnode2, -, hbase2⟩ := hat2e hii
            rw [hEq] at hint
            rcases hbase2 with hbb | ⟨hbb, -⟩
            · rw [hbb] at hint
              have hpi : prev2 = int := Option.some.inj hint
              apply ha
              rw [← hnode, ← hpi, hnode2]
            · rw [hbb] at hint
              exact Option.noConfusion hint
        refine ⟨int, ?_, hnode⟩
        rw [hupd iid.val hne1 hne2]
        exact hint
  case inter_point =>
    intro j i hget
    rcases hInter j i hget with ⟨-, -, hold⟩ | ⟨-, hi⟩ | ⟨-, -, prev2, hi, -, hnode2, hpt2, -⟩
    · exact hwf.inter_point j i hold
    · rw [hi]
      show alookup nm prev1.node = some prev1.point
      rw [hnode1, hpt1]
      exact hp1
    · rw [hi]
      show alookup nm prev2.node = some prev2.point
      rw [hnode2, hpt2]
      exact hp2
  case inter_roads =>
    intro j i hget rid hmem
    rcases hInter j i hget with ⟨-, -, hold⟩ | ⟨hj, hi⟩ | ⟨hj, -, prev2, hi, -, -, -, hbase2⟩
    · obtain ⟨r, hr, hend⟩ := hwf.inter_roads j i hold rid hmem
      obtain ⟨hl, -⟩ := List.getElem?_eq_some_iff.mp hr
      exact ⟨r, by rw [hRold rid.val hl]; exact hr, hend⟩
    · rw [hi] at hmem
      rcases List.mem_append.mp hmem with hm | hm
      · obtain ⟨r, hr, hend⟩ := hprev1_mem rid hm
        obtain ⟨hl, -⟩ := List.getElem?_eq_some_iff.mp hr
        refine ⟨r, by rw [hRold rid.val hl]; exact hr, ?_⟩
        rw [hj]
        exact hend
      · have := htail1 rid hm
        subst this
        refine ⟨_, hRN, Or.inl ?_⟩
        show i1 = (⟨j⟩ : IntersectionID)
        rw [hj]
    · rw [hi] at hmem
      rcases List.mem_append.mp hmem with hm | hm
      · have hmem2 : ∀ x ∈ prev2.roads,
            ∃ r : Road RD, st.roads[x.val]? = some r
              ∧ (r.src_i = ⟨i2.val⟩ ∨ r.dst_i = ⟨i2.val⟩) := by
          rcases hbase2 with hbb | ⟨-, hbb⟩
          · exact hwf.inter_roads i2.val prev2 hbb
          · intro x hx
            rw [hbb] at hx
            cases hx
        obtain ⟨r, hr, hend⟩ := hmem2 rid hm
        obtain ⟨hl, -⟩ := List.getElem?_eq_some_iff.mp hr
        refine ⟨r, by rw [hRold rid.val hl]; exact hr, ?_⟩
        rw [hj]
        exact hend
      · simp at hm
        subst hm
        refine ⟨_, hRN, Or.inr ?_⟩
        show i2 = (⟨j⟩ : IntersectionID)
        rw [hj]
  case roads_sorted =>
    intro j i hget
    rcases hInter j i hget with ⟨-, -, hold⟩ | ⟨-, hi⟩ | ⟨-, -, prev2, hi, -, -, -, hbase2⟩
    · exact hwf.roads_sorted j i hold
    · rw [hi]
      show (prev1.roads ++ _).Pairwise _
      refine List.pairwise_append.mpr ⟨hprev1_sorted, ?_, ?_⟩
      · by_cases hii : i1 = i2 <;> simp [hii]
      · intro a ha b hb
        have := htail1 b hb
        subst this
        exact Nat.le_of_lt (hprev1_lt a ha)
    · rw [hi]
      show (prev2.roads ++ _).Pairwise _
      have hsorted2 : prev2.roads.Pairwise (fun a b : RoadID => a.val ≤ b.val) := by
        rcases hbase2 with hbb | ⟨-, hbb⟩
        · exact hwf.roads_sorted i2.val prev2 hbb
        · rw [hbb]
          exact List.Pairwise.nil
      have hlt2' : ∀ x ∈ prev2.roads, x.val < st.roads.length := by
        intro x hx
        have hmem2 : ∃ r : Road RD, st.roads[x.val]? = some r
            ∧ (r.src_i = ⟨i2.val⟩ ∨ r.dst_i = ⟨i2.val⟩) := by
          rcases hbase2 with hbb | ⟨-, hbb⟩
          · exact hwf.inter_roads i2.val prev2 hbb x hx
          · rw [hbb] at hx
            cases hx
        obtain ⟨r, hr, -⟩ := hmem2
        obtain ⟨hl, -⟩ := List.getElem?_eq_some_iff.mp hr
        exact hl
      refine List.pairwise_append.mpr ⟨hsorted2, by simp, ?_⟩
      · intro a ha b hb
        simp at hb
        subst hb
        exact Nat.le_of_lt (hlt2' a ha)
  case road_src =>
    intro j r hget
    rcases hRcases j r hget with ⟨hjlt, hold⟩ | ⟨hj, hr⟩
    · obtain ⟨int, hint, hmem⟩ := hwf.road_src j r hold
      by_cases h1 : r.src_i.val = i1.val
      · rw [h1] at hint
        rcases hbase1 with hbb | ⟨hbb, -⟩
        · have : int = prev1 := by
            rw [hbb] at hint
            exact (Option.some.inj hint).symm
          subst this
          refine ⟨_, by rw [h1]; exact hat1, ?_⟩
          exact List.mem_append.mpr (Or.inl hmem)
        · rw [hbb] at hint
          exact Option.noConfusion hint
      · by_cases h2 : r.src_i.val = i2.val
        · have hne : i1 ≠ i2 := by
            intro hEq
            exact h1 (by rw [hEq, h2])
          obtain ⟨prev2, hat2, -, -, -, hbase2⟩ := hat2e hne
          rw [h2] at hint
          rcases hbase2 with hbb | ⟨hbb, -⟩
          · have : int = prev2 := by
              rw [hbb] at hint
              exact (Option.some.inj hint).symm
            subst this
            refine ⟨_, by rw [h2]; exact hat2, ?_⟩
            exact List.mem_append.mpr (Or.inl hmem)
          · rw [hbb] at hint
            exact Option.noConfusion hint
        · refine ⟨int, ?_, hmem⟩
          rw [hupd r.src_i.val h1 h2]
          exact hint
    · subst hr
      refine ⟨_, hat1, ?_⟩
      show (⟨st.roads.length⟩ : RoadID) ∈ _
      exact List.mem_append.mpr (Or.inr htail1_mem)
  case road_dst =>
    intro j r hget
    rcases hRcases j r hget with ⟨hjlt, hold⟩ | ⟨hj, hr⟩
    · obtain ⟨int, hint, hmem⟩ := hwf.road_dst j r hold
      by_cases h1 : r.dst_i.val = i1.val
      · rw [h1] at hint
        rcases hbase1 with hbb | ⟨hbb, -⟩
        · have : int = prev1 := by
            rw [hbb] at hint
            exact (Option.some.inj hint).symm
          subst this
          refine ⟨_, by rw [h1]; exact hat1, ?_⟩
          exact List.mem_append.mpr (Or.inl hmem)
        · rw [hbb] at hint
          exact Option.noConfusion hint
      · by_cases h2 : r.dst_i.val = i2.val
        · have hne : i1 ≠ i2 := by
            intro hEq
            exact h1 (by rw [hEq, h2])
          obtain ⟨prev2, hat2, -, -, -, hbase2⟩ := hat2e hne
          rw [h2] at hint
          rcases hbase2 with hbb | ⟨hbb, -⟩
          · have : int = prev2 := by
              rw [hbb] at hint
              exact (Option.some.inj hint).symm
            subst this
            refine ⟨_, by rw [h2]; exact hat2, ?_⟩
            exact List.mem_append.mpr (Or.inl hmem)
          · rw [hbb] at hint
            exact Option.noConfusion hint
        · refine ⟨int, ?_, hmem⟩
          rw [hupd r.dst_i.val h1 h2]
          exact hint
    · subst hr
      by_cases hii : i1 = i2
      · subst hii
        refine ⟨_, hat1, ?_⟩
        show (⟨st.roads.length⟩ : RoadID) ∈ _
        exact List.mem_append.mpr (Or.inr htail1_mem)
      · obtain ⟨prev2, hat2, -, -, -, -⟩ := hat2e hii
        refine ⟨_, hat2, ?_⟩
        show (⟨st.roads.length⟩ : RoadID) ∈ _
        simp
  case road_ls_len =>
    intro j r hget
    rcases hRcases j r hget with ⟨-, hold⟩ | ⟨-, hr⟩
    · exact hwf.road_ls_len j r hold
    · rw [hr]
      exact hlen
  case road_ls_src =>
    intro j r hget
    rcases hRcases j r hget with ⟨hjlt, hold⟩ | ⟨hj, hr⟩
    · obtain ⟨int, hint, hhd⟩ := hwf.road_ls_src j r hold
      by_cases h1 : r.src_i.val = i1.val
      · rw [h1] at hint
        rcases hbase1 with hbb | ⟨hbb, -⟩
        · have hieq : int = prev1 := by
            rw [hbb] at hint
            exact (Option.some.inj hint).symm
          refine ⟨_, by rw [h1]; exact hat1, ?_⟩
          show r.linestring.head? = some prev1.point
          rw [← hieq]
          exact hhd
        · rw [hbb] at hint
          exact Option.noConfusion hint
      · by_cases h2 : r.src_i.val = i2.val
        · have hne : i1 ≠ i2 := fun hEq => h1 (by rw [hEq, h2])
          obtain ⟨prev2, hat2, -, -, -, hbase2⟩ := hat2e hne
          rw [h2] at hint
          rcases hbase2 with hbb | ⟨hbb, -⟩
          · have hieq : int = prev2 := by
              rw [hbb] at hint
              exact (Option.some.inj hint).symm
            refine ⟨_, by rw [h2]; exact hat2, ?_⟩
            show r.linestring.head? = some prev2.point
            rw [← hieq]
            exact hhd
          · rw [hbb] at hint
            exact Option.noConfusion hint
        · refine ⟨int, ?_, hhd⟩
          rw [hupd r.src_i.val h1 h2]
          exact hint
    · subst hr
      refine ⟨_, hat1, ?_⟩
      show pts.head? = some prev1.point
      rw [hpt1]
      exact hhead
  case road_ls_dst =>
    intro j r hget
    rcases hRcases j r hget with ⟨hjlt, hold⟩ | ⟨hj, hr⟩
    · obtain ⟨int, hint, hhd⟩ := hwf.road_ls_dst j r hold
      by_cases h1 : r.dst_i.val = i1.val
      · rw [h1] at hint
        rcases hbase1 with hbb | ⟨hbb, -⟩
        · have hieq : int = prev1 := by
            rw [hbb] at hint
            exact (Option.some.inj hint).symm
          refine ⟨_, by rw [h1]; exact hat1, ?_⟩
          show r.linestring.getLast? = some prev1.point
          rw [← hieq]
          exact hhd
        · rw [hbb] at hint
          exact Option.noConfusion hint
      · by_cases h2 : r.dst_i.val = i2.val
        · have hne : i1 ≠ i2 := fun hEq => h1 (by rw [hEq, h2])
          obtain ⟨prev2, hat2, -, -, -, hbase2⟩ := hat2e hne
          rw [h2] at hint
          rcases hbase2 with hbb | ⟨hbb, -⟩
          · have hieq : int = prev2 := by
              rw [hbb] at hint
              exact (Option.some.inj hint).symm
            refine ⟨_, by rw [h2]; exact hat2, ?_⟩
            show r.linestring.getLast? = some prev2.point
            rw [← hieq]
            exact hhd
          · rw [hbb] at hint
            exact Option.noConfusion hint
        · refine ⟨int, ?_, hhd⟩
          rw [hupd r.dst_i.val h1 h2]
          exact hint
    · subst hr
      by_cases hii : i1 = i2
      · subst hii
        refine ⟨_, hat1, ?_⟩
        show pts.getLast? = some prev1.point
        rw [hpt1, hpp (hiff.mp rfl)]
        exact hlast
      · obtain ⟨prev2, hat2, -, -, hpt2, -⟩ := hat2e hii
        refine ⟨_, hat2, ?_⟩
        show pts.getLast? = some prev2.point
        rw [hpt2]
        exact hlast
  case road_count_self =>
    intro j r hget hsd i hgeti
    rcases hRcases j r hget with ⟨hjlt, hold⟩ | ⟨hj, hr⟩
    · have hcount := hwf.road_count_self j r hold hsd
      have hidlt : r.id.val < st.roads.length := by
        rw [hwf.road_id j r hold]
        exact hjlt
      have h0 : ∀ l : List RoadID, (∀ x ∈ l, x = (⟨st.roads.length⟩ : RoadID)) →
          l.count r.id = 0 := by
        intro l hl
        refine List.count_eq_zero.mpr ?_
        intro hm
        have := hl r.id hm
        rw [this] at hidlt
        exact Nat.lt_irrefl _ hidlt
      rcases hInter r.src_i.val i hgeti with ⟨-, -, holdi⟩ | ⟨hjeq, hi⟩
        | ⟨hjeq, -, prev2, hi, -, -, -, hbase2⟩
      · exact hcount i holdi
      · rw [hi]
        show (prev1.roads ++ _).count r.id = 2
        rw [List.count_append, h0 _ htail1, Nat.add_zero]
        rcases hbase1 with hbb | ⟨hbb, -⟩
        · exact hcount prev1 (by rw [hjeq]; exact hbb)
        · obtain ⟨int, hint, -⟩ := hwf.road_src j r hold
          rw [hjeq, hbb] at hint
          exact Option.noConfusion hint
      · rw [hi]
        show (prev2.roads ++ _).count r.id = 2
        rw [List.count_append,
          h0 [(⟨st.roads.length⟩ : RoadID)] (by intro x hx; simpa using hx), Nat.add_zero]
        rcases hbase2 with hbb | ⟨hbb, -⟩
        · exact hcount prev2 (by rw [hjeq]; exact hbb)
        · obtain ⟨int, hint, -⟩ := hwf.road_src j r hold
          rw [hjeq, hbb] at hint
          exact Option.noConfusion hint
    · subst hr
      have hii : i1 = i2 := hsd
      have hgeti' : st3.intersections[i1.val]? = some i := hgeti
      rw [hat1] at hgeti'
      have hieq : i = { prev1 with roads := prev1.roads
          ++ (if i1 = i2 then [⟨st.roads.length⟩, ⟨st.roads.length⟩]
              else [⟨st.roads.length⟩]) } := (Option.some.inj hgeti').symm
      rw [hieq]
      show (prev1.roads ++ _).count (⟨st.roads.length⟩ : RoadID) = 2
      rw [List.count_append, count_zero_of_lt hprev1_lt, if_pos hii]
      simp
  case road_self =>
    intro j r hget h12
    rcases hRcases j r hget with ⟨-, hold⟩ | ⟨-, hr⟩
    · exact hwf.road_self j r hold h12
    · subst hr
      show i1 = i2
      exact hiff.mpr h12

theorem alookup_nil {α β : Type} [DecidableEq α] (a : α) :
    alookup ([] : List (α × β)) a = none := rfl

/-- The way-splitting loop preserves the invariant whenever it succeeds.  The
two accumulator hypotheses say: an empty `pts` only occurs when the next node
to process is `node1` itself, and a nonempty `pts` starts at `node1`'s
coordinate. -/
theorem way_loop_wf {RD ID : Type} {nm : List (NodeID × Coord)}
    {counter : NodeID → Nat} {wayid : WayID} {tags : Tags} {mkRD : Tags → RD}
    {mkID : Unit → ID} {n : Nat} :
    ∀ (rest : List NodeID) (idx : Nat) (node1 : NodeID) (pts : List Coord)
      (st st' : SplitState RD ID),
      SplitWF nm st →
      (pts = [] → rest.head? = some node1) →
      (pts ≠ [] → ∃ p : Coord, alookup nm node1 = some p ∧ pts.head? = some p) →
      way_loop nm counter wayid tags mkRD mkID n rest idx node1 pts st = .ok st' →
      SplitWF nm st' := by
  intro rest
  induction rest with
  | nil =>
    intro idx node1 pts st st' hwf h1 h2 hrun
    simp only [way_loop] at hrun
    cases hrun
    exact hwf
  | cons node rest ih =>
    intro idx node1 pts st st' hwf h1 h2 hrun
    cases hc : alookup nm node with
    | none =>
      simp only [way_loop, hc] at hrun
      cases hrun
    | some c =>
      simp only [way_loop, hc] at hrun
      by_cases hg : (is_endpoint counter n idx node
          && decide ((pts ++ [c]).length > 1)) = true
      · rw [if_pos hg] at hrun
        have hplen : 1 < (pts ++ [c]).length := by
          have := (Bool.and_eq_true _ _).mp hg
          exact of_decide_eq_true this.2
        have hpts_ne : pts ≠ [] := by
          intro hh
          subst hh
          simp at hplen
        obtain ⟨p, hp, hh⟩ := h2 hpts_ne
        have hwf2 : SplitWF nm
            (emit_road mkRD mkID wayid tags node1 node (pts ++ [c]) st) := by
          refine emit_wf hwf hp hc ?_ ?_ ?_ rfl
          · rw [List.head?_append, hh]
            rfl
          · exact List.getLast?_concat _
          · exact hplen
        exact ih (idx + 1) node [c] _ st' hwf2 (by simp)
          (fun _ => ⟨c, hc, rfl⟩) hrun
      · rw [if_neg hg] at hrun
        refine ih (idx + 1) node1 (pts ++ [c]) st st' hwf (by simp) ?_ hrun
        intro _
        rcases Decidable.em (pts = []) with hpe | hpe
        · subst hpe
          have hhd := h1 rfl
          simp at hhd
          subst hhd
          exact ⟨c, hc, by simp⟩
        · obtain ⟨p, hp, hh⟩ := h2 hpe
          refine ⟨p, hp, ?_⟩
          rw [List.head?_append, hh]
          rfl

/-- Processing one way preserves the invariant whenever it succeeds. -/
theorem process_way_wf {RD ID : Type} {nm : List (NodeID × Coord)}
    {counter : NodeID → Nat} {mkRD : Tags → RD} {mkID : Unit → ID}
    {w : Way} {st st' : SplitState RD ID}
    (hwf : SplitWF nm st)
    (hrun : process_way nm counter mkRD mkID w st = .ok st') :
    SplitWF nm st' := by
  cases hnids : w.node_ids with
  | nil =>
    rw [process_way, hnids] at hrun
    cases hrun
  | cons n0 rest =>
    rw [process_way, hnids] at hrun
    exact way_loop_wf (n0 :: rest) 0 n0 [] st st' hwf (fun _ => rfl)
      (fun h => absurd rfl h) hrun

theorem foldl_process_wf {RD ID : Type} {nm : List (NodeID × Coord)}
    {counter : NodeID → Nat} {mkRD : Tags → RD} {mkID : Unit → ID} :
    ∀ (ways : List Way) (st st' : SplitState RD ID),
      SplitWF nm st →
      ways.foldlM (fun s w => process_way nm counter mkRD mkID w s) st = .ok st' →
      SplitWF nm st' := by
  intro ways
  induction ways with
  | nil =>
    intro st st' hwf hrun
    cases hrun
    exact hwf
  | cons w ws ih =>
    intro st st' hwf hrun
    rw [List.foldlM_cons] at hrun
    cases hp : process_way nm counter mkRD mkID w st with
    | error e =>
      rw [hp] at hrun
      have hcon : (Except.error e : Except BuildFailure (SplitState RD ID))
          = .ok st' := hrun
      cases hcon
    | ok st1 =>
      rw [hp] at hrun
      exact ih st1 st' (process_way_wf hwf hp) hrun

/-- On success, `split_edges` returns a well-formed state. -/
theorem split_edges_wf {RD ID : Type} {nm : List (NodeID × Coord)}
    {ways : List Way} {mkRD : Tags → RD} {mkID : Unit → ID}
    {st' : SplitState RD ID}
    (hrun : split_edges nm ways mkRD mkID = .ok st') : SplitWF nm st' := by
  have hinit : SplitWF nm
      ({ node_to_intersection := [], intersections := [], roads := [] } :
        SplitState RD ID) := by
    constructor <;> intros <;> simp_all [alookup_nil]
  exact foldl_process_wf ways _ st' hinit hrun

/-- The invariant survives the in-place Mercator reprojection, which maps
every linestring pointwise and every intersection point by the same
function. -/
theorem graph_wf_of_split {RD ID : Type} {nm : List (NodeID × Coord)}
    {st : SplitState RD ID} (hwf : SplitWF nm st) (m : Mercator)
    (bp : List Coord) :
    GraphWF (graph_project m bp st) := by
  have hr : ∀ (j : Nat) (r : Road RD),
      (st.roads.map (road_to_mercator m))[j]? = some r →
      ∃ r0 : Road RD, st.roads[j]? = some r0 ∧ r = road_to_mercator m r0 := by
    intro j r h
    rw [List.getElem?_map] at h
    obtain ⟨r0, hr0, heq⟩ := Option.map_eq_some'.mp h
    exact ⟨r0, hr0, heq.symm⟩
  have hi : ∀ (j : Nat) (i : Intersection ID),
      (st.intersections.map (inter_to_mercator m))[j]? = some i →
      ∃ i0 : Intersection ID, st.intersections[j]? = some i0
        ∧ i = inter_to_mercator m i0 := by
    intro j i h
    rw [List.getElem?_map] at h
    obtain ⟨i0, hi0, heq⟩ := Option.map_eq_some'.mp h
    exact ⟨i0, hi0, heq.symm⟩
  have hrfwd : ∀ (j : Nat) (r0 : Road RD), st.roads[j]? = some r0 →
      (st.roads.map (road_to_mercator m))[j]? = some (road_to_mercator m r0) := by
    intro j r0 h
    rw [List.getElem?_map, h]
    rfl
  have hifwd : ∀ (j : Nat) (i0 : Intersection ID), st.intersections[j]? = some i0 →
      (st.intersections.map (inter_to_mercator m))[j]?
        = some (inter_to_mercator m i0) := by
    intro j i0 h
    rw [List.getElem?_map, h]
    rfl
  constructor
  case road_id =>
    intro j r h
    obtain ⟨r0, hr0, rfl⟩ := hr j r h
    exact hwf.road_id j r0 hr0
  case inter_id =>
    intro j i h
    obtain ⟨i0, hi0, rfl⟩ := hi j i h
    exact hwf.inter_id j i0 hi0
  case inter_roads =>
    intro j i h rid hmem
    obtain ⟨i0, hi0, rfl⟩ := hi j i h
    obtain ⟨r0, hr0, hend⟩ := hwf.inter_roads j i0 hi0 rid hmem
    exact ⟨_, hrfwd rid.val r0 hr0, hend⟩
  case roads_sorted =>
    intro j i h
    obtain ⟨i0, hi0, rfl⟩ := hi j i h
    exact hwf.roads_sorted j i0 hi0
  case road_src =>
    intro j r h
    obtain ⟨r0, hr0, rfl⟩ := hr j r h
    obtain ⟨i0, hi0, hmem⟩ := hwf.road_src j r0 hr0
    exact ⟨_, hifwd _ i0 hi0, hmem⟩
  case road_dst =>
    intro j r h
    obtain ⟨r0, hr0, rfl⟩ := hr j r h
    obtain ⟨i0, hi0, hmem⟩ := hwf.road_dst j r0 hr0
    exact ⟨_, hifwd _ i0 hi0, hmem⟩
  case road_ls_len =>
    intro j r h
    obtain ⟨r0, hr0, rfl⟩ := hr j r h
    show 2 ≤ (r0.linestring.map _).length
    rw [List.length_map]
    exact hwf.road_ls_len j r0 hr0
  case road_ls_src =>
    intro j r h
    obtain ⟨r0, hr0, rfl⟩ := hr j r h
    obtain ⟨i0, hi0, hhd⟩ := hwf.road_ls_src j r0 hr0
    refine ⟨_, hifwd _ i0 hi0, ?_⟩
    show (r0.linestring.map _).head? = _
    rw [List.head?_map, hhd]
    rfl
  case road_ls_dst =>
    intro j r h
    obtain ⟨r0, hr0, rfl⟩ := hr j r h
    obtain ⟨i0, hi0, hhd⟩ := hwf.road_ls_dst j r0 hr0
    refine ⟨_, hifwd _ i0 hi0, ?_⟩
    show (r0.linestring.map _).getLast? = _
    rw [List.getLast?_map, hhd]
    rfl
  case road_count_self =>
    intro j r h hsd i hgeti
    obtain ⟨r0, hr0, rfl⟩ := hr j r h
    obtain ⟨i0, hi0, rfl⟩ := hi _ i hgeti
    exact hwf.road_count_self j r0 hr0 hsd i0 hi0
  case road_self =>
    intro j r h h12
    obtain ⟨r0, hr0, rfl⟩ := hr j r h
    exact hwf.road_self j r0 hr0 h12

/-- Every graph the constructor returns is well-formed. -/
theorem graph_new_wf {RD ID : Type} {elements : List Element}
    {keep_road : Tags → Bool} {mkRD : Tags → RD} {mkID : Unit → ID}
    {g : Graph RD ID}
    (h : graph_new elements keep_road mkRD mkID = .ok g) : GraphWF g := by
  cases hsp : split_edges (scan_elements keep_road elements).1
      (scan_elements keep_road elements).2 mkRD mkID with
  | error e =>
    simp only [graph_new, hsp] at h
    cases h
  | ok st =>
    cases hm : Mercator.from_collection
        ((st.roads.map (fun r => r.linestring)).flatten
          ++ st.intersections.map (fun i => i.point)) with
    | none =>
      simp only [graph_new, hsp, hm] at h
      cases h
    | some m =>
      simp only [graph_new, hsp, hm, Except.ok.injEq] at h
      rw [← h]
      exact graph_wf_of_split (split_edges_wf hsp) m _

theorem findSome_sorted_min {β : Type} (f : RoadID → Option β) (idOf : β → RoadID) :
    ∀ l : List RoadID,
      l.Pairwise (fun a b => a.val ≤ b.val) →
      (∀ rid ∈ l, ∀ b : β, f rid = some b → idOf b = rid) →
      (∃ rid ∈ l, (f rid).isSome) →
      ∃ b : β, l.findSome? f = some b ∧ idOf b ∈ l ∧ f (idOf b) = some b
        ∧ ∀ rid ∈ l, (f rid).isSome → (idOf b).val ≤ rid.val := by
  intro l
  induction l with
  | nil =>
    intro _ _ hex
    obtain ⟨rid, hm, -⟩ := hex
    cases hm
  | cons a rest ih =>
    intro hsorted hidof hex
    cases hf : f a with
    | some b =>
      have hida : idOf b = a := hidof a (List.mem_cons_self a rest) b hf
      refine ⟨b, ?_, ?_, ?_, ?_⟩
      · simp only [List.findSome?_cons, hf]
      · rw [hida]
        exact List.mem_cons_self a rest
      · rw [hida]
        exact hf
      · intro rid hm _
        rw [hida]
        rcases List.mem_cons.mp hm with rfl | hm2
        · exact Nat.le_refl _
        · exact (List.pairwise_cons.mp hsorted).1 rid hm2
    | none =>
      have hex2 : ∃ rid ∈ rest, (f rid).isSome := by
        obtain ⟨rid, hm, hs⟩ := hex
        rcases List.mem_cons.mp hm with rfl | hm2
        · rw [hf] at hs
          cases hs
        · exact ⟨rid, hm2, hs⟩
      obtain ⟨b, hfind, hmem, hfb, hmin⟩ := ih (List.pairwise_cons.mp hsorted).2
        (fun rid hm bb hbb => hidof rid (List.mem_cons_of_mem a hm) bb hbb) hex2
      refine ⟨b, ?_, List.mem_cons_of_mem a hmem, hfb, ?_⟩
      · simp only [List.findSome?_cons, hf]
        exact hfind
      · intro rid hm hs
        rcases List.mem_cons.mp hm with rfl | hm2
        · rw [hf] at hs
          cases hs
        · exact hmin rid hm2 hs

/-- C1 counterexample: on `highway=residential, foot=no` the classifier does
not return None — the guarded residential rule requires `foot ≠ no`, so the
bag falls through every rule to the final fallback and is classified
Severance, under both values of the configuration flag. -/
theorem C1_counterexample :
    classify tags_resi_foot_no true = some RoadKind.Severance
    ∧ classify tags_resi_foot_no false = some RoadKind.Severance
    ∧ classify tags_resi_foot_no true ≠ none
    ∧ classify tags_resi_foot_no false ≠ none := by
  decide

/-- C1 (amended): for the tag bag highway=residential, foot=no (and no other
tags), classify returns Some Severance — not None — for both values of the
import_streets_without_sidewalk_tagging flag: `foot=no` falsifies the
residential rule's guard and the fallback rule labels the way Severance. -/
theorem C1_amended (flag : Bool) :
    classify tags_resi_foot_no flag = some RoadKind.Severance := by
  cases flag <;> decide

/-- C2 counterexample: in the sole kept way 1-2-2-3, node 2 is neither first
nor last and is referenced by exactly 1 kept way, so the claim makes its two
interior positions non-boundaries and keeps the duplicate pair inside one
edge; but `node_counter` counts occurrences, so the code splits at both
positions and produces three edges (the middle one a degenerate two-point
self-loop), none containing the duplicate pair inside a longer linestring. -/
theorem C2_counterexample :
    Except.map (fun st => st.roads.map road_shape)
      (split_edges nm_abc [way_1223] unit_rd unit_id)
      = .ok [(1, 2, [((0 : Int), (0 : Int)), (10, 0)]),
             (2, 2, [(10, 0), (10, 0)]),
             (2, 3, [(10, 0), (20, 0)])]
    ∧ ways_referencing [way_1223] 2 = 1
    ∧ way_1223.node_ids.length = 4
    ∧ way_1223.node_ids[1]? = some 2 ∧ way_1223.node_ids[2]? = some 2 := by
  decide

/-- C6 counterexample: the single kept way 1-2-3-2-1 is a closed loop and no
interior node is shared with any other kept way, yet it yields three roads,
not one: the repeated interior node 2 has occurrence count 2, so the code
splits there. -/
theorem C6_counterexample :
    Except.map (fun st => st.roads.length)
      (split_edges nm_abc [way_12321] unit_rd unit_id) = .ok 3
    ∧ way_12321.node_ids.head? = some 1
    ∧ way_12321.node_ids.getLast? = some 1
    ∧ ways_referencing [way_12321] 2 = 1
    ∧ ways_referencing [way_12321] 3 = 1 := by
  decide

/-- C3 counterexample: a kept way referencing the absent node ids 1 and 2
makes the constructor panic (the HashMap index `node_mapping[&node]`), and an
input with no kept geometry makes it panic (`Mercator::from(...).unwrap()`);
neither failure is a returned initialisation error. -/
theorem C3_counterexample :
    (graph_new [Element.way 5 [1, 2] ⟨[]⟩] keep_all unit_rd unit_id
      = .error (.panicked "no entry found for key"))
    ∧ (graph_new ([] : List Element) keep_all unit_rd unit_id
      = .error (.panicked "called Option unwrap on a None value")) := by
  decide

/-- C7 counterexample: intersections 0 and 0 (an equal pair) are connected by
road 1, a self-loop; but find_edge(0, 0) returns road 0, whose endpoints are
intersections 0 and 1 — not the claimed road whose endpoints are i1 and i2,
nor the lowest-RoadID connecting road (which is road 1). -/
theorem C7_counterexample :
    Except.map
      (fun g => ((find_edge g ⟨0⟩ ⟨0⟩).map (fun r => (r.id, r.src_i, r.dst_i)),
                 g.roads[1]?.map (fun r => (r.src_i, r.dst_i))))
      (graph_new elems_find keep_all unit_rd unit_id)
      = .ok (some (⟨0⟩, ⟨0⟩, ⟨1⟩), some (⟨0⟩, ⟨0⟩)) := by
  decide

/-- C4: after a successful `Graph::new`, every road's linestring has at least
two points, its first point equals the source intersection's point exactly,
and its last point equals the destination intersection's point exactly (both
sides having been reprojected to Mercator by the same function). -/
theorem C4_linestring_anchored {RD ID : Type} (elements : List Element)
    (keep_road : Tags → Bool) (mkRD : Tags → RD) (mkID : Unit → ID)
    (g : Graph RD ID)
    (h : graph_new elements keep_road mkRD mkID = .ok g) :
    ∀ r ∈ g.roads, 2 ≤ r.linestring.length
      ∧ (∃ i : Intersection ID, g.intersections[r.src_i.val]? = some i
          ∧ r.linestring.head? = some i.point)
      ∧ (∃ i : Intersection ID, g.intersections[r.dst_i.val]? = some i
          ∧ r.linestring.getLast? = some i.point) := by
  intro r hr
  have hwf := graph_new_wf h
  obtain ⟨j, hj⟩ := List.mem_iff_getElem?.mp hr
  exact ⟨hwf.road_ls_len j r hj, hwf.road_ls_src j r hj, hwf.road_ls_dst j r hj⟩

theorem C4_witness :
    graph_new elems_find keep_all unit_rd unit_id = .ok gE7
    ∧ (2 ≤ roadE7_loop.linestring.length
      ∧ (∃ i : Intersection Unit, gE7.intersections[roadE7_loop.src_i.val]? = some i
          ∧ roadE7_loop.linestring.head? = some i.point)
      ∧ (∃ i : Intersection Unit, gE7.intersections[roadE7_loop.dst_i.val]? = some i
          ∧ roadE7_loop.linestring.getLast? = some i.point)) :=
  ⟨by decide,
   C4_linestring_anchored elems_find keep_all unit_rd unit_id gE7 (by decide)
     roadE7_loop (by decide)⟩

/-- C5: after a successful `Graph::new`, ids are dense self-indices — the
road stored at index r.id.0 is r itself, the intersection stored at index
i.id.0 is i itself — every road's id is listed in both endpoint
intersections' adjacency lists, and conversely every road id listed in an
intersection's adjacency has that intersection as src_i or dst_i. -/
theorem C5_id_cross_references {RD ID : Type} (elements : List Element)
    (keep_road : Tags → Bool) (mkRD : Tags → RD) (mkID : Unit → ID)
    (g : Graph RD ID)
    (h : graph_new elements keep_road mkRD mkID = .ok g) :
    (∀ r ∈ g.roads, g.roads[r.id.val]? = some r)
    ∧ (∀ i ∈ g.intersections, g.intersections[i.id.val]? = some i)
    ∧ (∀ r ∈ g.roads,
        (∃ i : Intersection ID, g.intersections[r.src_i.val]? = some i
          ∧ r.id ∈ i.roads)
        ∧ (∃ i : Intersection ID, g.intersections[r.dst_i.val]? = some i
          ∧ r.id ∈ i.roads))
    ∧ (∀ (j : Nat) (i : Intersection ID), g.intersections[j]? = some i →
        ∀ rid ∈ i.roads, ∃ r : Road RD, g.roads[rid.val]? = some r
          ∧ (r.src_i = i.id ∨ r.dst_i = i.id)) := by
  have hwf := graph_new_wf h
  refine ⟨?_, ?_, ?_, ?_⟩
  · intro r hr
    obtain ⟨j, hj⟩ := List.mem_iff_getElem?.mp hr
    rw [hwf.road_id j r hj]
    exact hj
  · intro i hi
    obtain ⟨j, hj⟩ := List.mem_iff_getElem?.mp hi
    rw [hwf.inter_id j i hj]
    exact hj
  · intro r hr
    obtain ⟨j, hj⟩ := List.mem_iff_getElem?.mp hr
    exact ⟨hwf.road_src j r hj, hwf.road_dst j r hj⟩
  · intro j i hj rid hmem
    obtain ⟨r, hrg, hend⟩ := hwf.inter_roads j i hj rid hmem
    refine ⟨r, hrg, ?_⟩
    rw [hwf.inter_id j i hj]
    exact hend

theorem C5_witness :
    graph_new elems_find keep_all unit_rd unit_id = .ok gE7
    ∧ gE7.roads[roadE7_loop.id.val]? = some roadE7_loop
    ∧ (∃ i : Intersection Unit, gE7.intersections[roadE7_edge.src_i.val]? = some i
        ∧ roadE7_edge.id ∈ i.roads) := by
  have hok : graph_new elems_find keep_all unit_rd unit_id = .ok gE7 := by decide
  have h5 := C5_id_cross_references elems_find keep_all unit_rd unit_id gE7 hok
  exact ⟨hok, h5.1 roadE7_loop (by decide), (h5.2.2.1 roadE7_edge (by decide)).1⟩

/-- C10: a self-loop road (src_i = dst_i) appears exactly twice in its single
endpoint intersection's adjacency list — once per endpoint slot; the list is
an insertion-order sequence, not a deduplicated set. -/
theorem C10_self_loop_listed_twice {RD ID : Type} (elements : List Element)
    (keep_road : Tags → Bool) (mkRD : Tags → RD) (mkID : Unit → ID)
    (g : Graph RD ID)
    (h : graph_new elements keep_road mkRD mkID = .ok g) :
    ∀ r ∈ g.roads, r.src_i = r.dst_i →
      ∃ i : Intersection ID, g.intersections[r.src_i.val]? = some i
        ∧ i.roads.count r.id = 2 := by
  intro r hr hsd
  have hwf := graph_new_wf h
  obtain ⟨j, hj⟩ := List.mem_iff_getElem?.mp hr
  obtain ⟨i, hi, -⟩ := hwf.road_src j r hj
  exact ⟨i, hi, hwf.road_count_self j r hj hsd i hi⟩

theorem C10_witness :
    (graph_new elems_find keep_all unit_rd unit_id = .ok gE7
      ∧ roadE7_loop ∈ gE7.roads ∧ roadE7_loop.src_i = roadE7_loop.dst_i)
    ∧ (∃ i : Intersection Unit,
        gE7.intersections[roadE7_loop.src_i.val]? = some i
        ∧ i.roads.count roadE7_loop.id = 2) :=
  ⟨⟨by decide, by decide, by decide⟩,
   C10_self_loop_listed_twice elems_find keep_all unit_rd unit_id gE7 (by decide)
     roadE7_loop (by decide) (by decide)⟩

/-- C7 (amended): for distinct intersections i1 and i2 of a constructed
graph, find_edge returns Some road connecting them with the lowest RoadID
among the connecting roads when one exists (each adjacency list is appended
in ascending road-creation order), and None when no road connects them.  For
i1 = i2 the endpoint test degenerates (see the counterexample), so the claim
holds only for distinct pairs. -/
theorem C7_amended {RD ID : Type} (elements : List Element)
    (keep_road : Tags → Bool) (mkRD : Tags → RD) (mkID : Unit → ID)
    (g : Graph RD ID) (i1 i2 : IntersectionID)
    (h : graph_new elements keep_road mkRD mkID = .ok g) (hne : i1 ≠ i2) :
    ((∃ r ∈ g.roads, connects r i1 i2) →
      ∃ r : Road RD, find_edge g i1 i2 = some r ∧ r ∈ g.roads
        ∧ connects r i1 i2
        ∧ ∀ r' ∈ g.roads, connects r' i1 i2 → r.id.val ≤ r'.id.val)
    ∧ ((¬ ∃ r ∈ g.roads, connects r i1 i2) → find_edge g i1 i2 = none) := by
  have hwf := graph_new_wf h
  have hself : ∀ r ∈ g.roads, g.roads[r.id.val]? = some r := by
    intro r hr
    obtain ⟨j, hj⟩ := List.mem_iff_getElem?.mp hr
    rw [hwf.road_id j r hj]
    exact hj
  set f : RoadID → Option (Road RD) := fun rid =>
    match g.roads[rid.val]? with
    | none => none
    | some road =>
      if road.src_i = i2 ∨ road.dst_i = i2 then some road else none
    with hfdef
  have hfsome : ∀ (rid : RoadID) (b : Road RD), f rid = some b →
      g.roads[rid.val]? = some b ∧ (b.src_i = i2 ∨ b.dst_i = i2) := by
    intro rid b hb
    rw [hfdef] at hb
    cases hg : g.roads[rid.val]? with
    | none =>
      simp only [hg] at hb
      exact Option.noConfusion hb
    | some road =>
      simp only [hg] at hb
      by_cases hp : road.src_i = i2 ∨ road.dst_i = i2
      · rw [if_pos hp] at hb
        cases Option.some.inj hb
        exact ⟨rfl, hp⟩
      · rw [if_neg hp] at hb
        cases hb
  have hfof : ∀ r' ∈ g.roads, connects r' i1 i2 → f r'.id = some r' := by
    intro r' hm hc
    have hp : r'.src_i = i2 ∨ r'.dst_i = i2 := by
      rcases hc with ⟨hs, hd⟩ | ⟨hs, hd⟩
      · exact Or.inr hd
      · exact Or.inl hs
    rw [hfdef]
    simp only [hself r' hm]
    rw [if_pos hp]
  have hidof : ∀ (rid : RoadID) (b : Road RD), f rid = some b → b.id = rid := by
    intro rid b hb
    obtain ⟨hg, -⟩ := hfsome rid b hb
    exact hwf.road_id rid.val b hg
  have hr_in : ∀ r' ∈ g.roads, connects r' i1 i2 →
      ∃ int1 : Intersection ID, g.intersections[i1.val]? = some int1
        ∧ r'.id ∈ int1.roads := by
    intro r' hm hc
    obtain ⟨j, hj⟩ := List.mem_iff_getElem?.mp hm
    rcases hc with ⟨hs, -⟩ | ⟨-, hd⟩
    · obtain ⟨int1, hi1, hmm⟩ := hwf.road_src j r' hj
      rw [hs] at hi1
      exact ⟨int1, hi1, hmm⟩
    · obtain ⟨int1, hi1, hmm⟩ := hwf.road_dst j r' hj
      rw [hd] at hi1
      exact ⟨int1, hi1, hmm⟩
  constructor
  · rintro ⟨r0, hr0m, hr0c⟩
    obtain ⟨int1, hi1get, hr0in⟩ := hr_in r0 hr0m hr0c
    have hfe : find_edge g i1 i2 = int1.roads.findSome? f := by
      simp only [find_edge, hi1get]
    obtain ⟨b, hfind, hbmem, hfb, hmin⟩ := findSome_sorted_min f Road.id
      int1.roads (hwf.roads_sorted i1.val int1 hi1get)
      (fun rid _ bb hbb => hidof rid bb hbb)
      ⟨r0.id, hr0in, by rw [hfof r0 hr0m hr0c]; rfl⟩
    obtain ⟨hbg, hbp⟩ := hfsome b.id b hfb
    obtain ⟨rb, hrbg, hrbe⟩ := hwf.inter_roads i1.val int1 hi1get b.id hbmem
    have hrb : rb = b := by
      rw [hbg] at hrbg
      exact (Option.some.inj hrbg).symm
    subst hrb
    have hrbe1 : rb.src_i = i1 ∨ rb.dst_i = i1 := hrbe
    have hbc : connects rb i1 i2 := by
      rcases hbp with hs2 | hd2
      · rcases hrbe1 with hs1 | hd1
        · exact absurd (hs1.symm.trans hs2) hne
        · exact Or.inr ⟨hs2, hd1⟩
      · rcases hrbe1 with hs1 | hd1
        · exact Or.inl ⟨hs1, hd2⟩
        · exact absurd (hd1.symm.trans hd2) hne
    refine ⟨rb, by rw [hfe]; exact hfind,
      List.mem_iff_getElem?.mpr ⟨rb.id.val, hbg⟩, hbc, ?_⟩
    intro r' hm' hc'
    obtain ⟨int1b, hi1getb, hr'in⟩ := hr_in r' hm' hc'
    have hsame : int1b = int1 := by
      rw [hi1get] at hi1getb
      exact (Option.some.inj hi1getb).symm
    subst hsame
    exact hmin r'.id hr'in (by rw [hfof r' hm' hc']; rfl)
  · intro hnex
    cases hi1g : g.intersections[i1.val]? with
    | none =>
      simp only [find_edge, hi1g]
    | some int1 =>
      simp only [find_edge, hi1g]
      refine List.findSome?_eq_none_iff.mpr ?_
      intro rid hm
      show (match g.roads[rid.val]? with
        | none => none
        | some road =>
          if road.src_i = i2 ∨ road.dst_i = i2 then some road else none) = none
      cases hg : g.roads[rid.val]? with
      | none => rfl
      | some road =>
        simp only
        rw [if_neg ?_]
        intro hp
        obtain ⟨r', hr'g, hr'e⟩ := hwf.inter_roads i1.val int1 hi1g rid hm
        have hsame : r' = road := by
          rw [hg] at hr'g
          exact (Option.some.inj hr'g).symm
        subst hsame
        have hr'e1 : r'.src_i = i1 ∨ r'.dst_i = i1 := hr'e
        have hc : connects r' i1 i2 := by
          rcases hp with hs2 | hd2
          · rcases hr'e1 with hs1 | hd1
            · exact absurd (hs1.symm.trans hs2) hne
            · exact Or.inr ⟨hs2, hd1⟩
          · rcases hr'e1 with hs1 | hd1
            · exact Or.inl ⟨hs1, hd2⟩
            · exact absurd (hd1.symm.trans hd2) hne
        exact hnex ⟨r', List.mem_iff_getElem?.mpr ⟨rid.val, hg⟩, hc⟩

theorem C7_witness :
    (graph_new elems_find keep_all unit_rd unit_id = .ok gE7
      ∧ (⟨0⟩ : IntersectionID) ≠ ⟨1⟩
      ∧ roadE7_edge ∈ gE7.roads ∧ connects roadE7_edge ⟨0⟩ ⟨1⟩)
    ∧ (∃ r : Road Unit, find_edge gE7 ⟨0⟩ ⟨1⟩ = some r ∧ r ∈ gE7.roads
        ∧ connects r ⟨0⟩ ⟨1⟩
        ∧ ∀ r' ∈ gE7.roads, connects r' ⟨0⟩ ⟨1⟩ → r.id.val ≤ r'.id.val) :=
  ⟨⟨by decide, by decide, by decide, by decide⟩,
   (C7_amended elems_find keep_all unit_rd unit_id gE7 ⟨0⟩ ⟨1⟩ (by decide)
       (by decide)).1
     ⟨roadE7_edge, by decide, by decide⟩⟩

/-- C2 (amended): during way-splitting, a road boundary is placed at a
position of a kept way's node sequence iff it is the first position, the
last position, or the node there has total occurrence count above 1 summed
over all kept ways (`node_counter` counts occurrences, so a node repeated
inside a single way is itself a split point): on any fully mapped nonempty
way, `process_way` succeeds and appends exactly one road per consecutive
pair of such boundary positions, whose endpoint node ids are the nodes at
those positions and whose linestring is the verbatim inclusive coordinate
slice between them (duplicate consecutive node ids preserved). -/
theorem C2_amended {RD ID : Type} (ways : List Way) (nm : List (NodeID × Coord))
    (mkRD : Tags → RD) (mkID : Unit → ID) (w : Way) (st : SplitState RD ID)
    (hne : w.node_ids ≠ [])
    (hmap : ∀ x ∈ w.node_ids, (alookup nm x).isSome) :
    ∃ st' : SplitState RD ID,
      process_way nm (node_counter ways) mkRD mkID w st = .ok st'
      ∧ st'.roads.map road_shape = st.roads.map road_shape
          ++ way_segments nm (node_counter ways) w.node_ids :=
  process_way_segments nm (node_counter ways) mkRD mkID w st hne hmap

/-- C2 witness: the amended statement evaluated on the way 1-2-2-3 of the
counterexample — the repeated node 2 splits the way at both of its interior
positions, and the emitted roads match `way_segments` exactly. -/
theorem C2_witness :
    way_1223.node_ids ≠ []
    ∧ (∀ x ∈ way_1223.node_ids, (alookup nm_abc x).isSome)
    ∧ ∃ st' : SplitState Unit Unit,
        process_way nm_abc (node_counter [way_1223]) unit_rd unit_id way_1223
          (st_empty : SplitState Unit Unit) = .ok st'
        ∧ st'.roads.map road_shape
            = (st_empty : SplitState Unit Unit).roads.map road_shape
            ++ way_segments nm_abc (node_counter [way_1223]) way_1223.node_ids :=
  ⟨by decide, by decide,
   C2_amended [way_1223] nm_abc unit_rd unit_id way_1223 st_empty (by decide)
     (by decide)⟩

/-- C6 (amended): for any kept-ways list and any intermediate splitting
state, processing a kept way whose node sequence is a closed loop (first
node equals last node) and whose interior nodes each have total occurrence
count 1 summed over ALL the kept ways (no repeats inside the loop way
itself and no sharing with any other kept way — the code counts
occurrences, not referencing ways) appends exactly one road: both its
endpoint node ids are the loop node, its linestring is the whole loop
polyline, and — as for every road whose endpoint node ids coincide — its
src_i equals its dst_i. -/
theorem C6_amended {RD ID : Type} (ways : List Way) (nm : List (NodeID × Coord))
    (mkRD : Tags → RD) (mkID : Unit → ID) (w : Way) (n0 : NodeID)
    (mid : List NodeID) (st : SplitState RD ID)
    (hw : w.node_ids = n0 :: (mid ++ [n0]))
    (hmap : ∀ x ∈ w.node_ids, (alookup nm x).isSome)
    (hmid : ∀ x ∈ mid, node_counter ways x = 1)
    (hself : ∀ r ∈ st.roads, r.node1 = r.node2 → r.src_i = r.dst_i) :
    ∃ st' : SplitState RD ID,
      process_way nm (node_counter ways) mkRD mkID w st = .ok st'
      ∧ st'.roads.map road_shape = st.roads.map road_shape
          ++ [(n0, n0, w.node_ids.map (coord_of nm))]
      ∧ ∀ r ∈ st'.roads, r.node1 = r.node2 → r.src_i = r.dst_i := by
  have hne : w.node_ids ≠ [] := by rw [hw]; exact List.cons_ne_nil _ _
  obtain ⟨st', hrun, hshape⟩ := process_way_segments nm (node_counter ways) mkRD mkID w
    st hne hmap
  have hn : w.node_ids.length = mid.length + 2 := by
    rw [hw]
    simp
    try omega
  have hr1 : List.range' 0 w.node_ids.length
      = 0 :: (List.range' 1 mid.length ++ [mid.length + 1]) := by
    rw [hn, show mid.length + 2 = (mid.length + 1) + 1 from rfl, List.range'_succ,
      List.range'_concat]
    simp [Nat.add_comm]
  have hinterior : ∀ a ∈ List.range' 1 mid.length,
      is_endpoint (node_counter ways) w.node_ids.length a (w.node_ids.getD a 0) = false := by
    intro a ha
    obtain ⟨h1, h2⟩ := List.mem_range'_1.mp ha
    have ha1 : a - 1 < mid.length := by omega
    have hget : w.node_ids.getD a 0 = mid.getD (a - 1) 0 := by
      rw [hw]
      cases a with
      | zero => omega
      | succ j =>
        have hj : j < mid.length := by omega
        simp only [List.getD_cons_succ, Nat.add_sub_cancel]
        rw [List.getD_eq_getElem?_getD, List.getD_eq_getElem?_getD,
          List.getElem?_append_left hj]
    have hmem : mid.getD (a - 1) 0 ∈ mid := by
      rw [List.getD_eq_getElem?_getD, List.getElem?_eq_getElem ha1]
      exact List.getElem_mem ha1
    have hcnt := hmid _ hmem
    rw [hget]
    unfold is_endpoint
    rw [hcnt]
    simp [hn]
    try omega
  have hnil : List.filter (fun idx => is_endpoint (node_counter ways) w.node_ids.length idx
      (w.node_ids.getD idx 0)) (List.range' 1 mid.length) = [] := by
    rw [List.filter_eq_nil_iff]
    intro a ha
    show ¬(is_endpoint (node_counter ways) w.node_ids.length a
      (w.node_ids.getD a 0) = true)
    rw [hinterior a ha]
    simp
  have hbp : boundary_positions (node_counter ways) w.node_ids = [0, mid.length + 1] := by
    unfold boundary_positions
    rw [List.range_eq_range', hr1, List.filter_cons, List.filter_append, hnil,
      List.filter_cons, List.filter_nil]
    simp [is_endpoint, hn]
  have e1 : w.node_ids.getD 0 0 = n0 := by rw [hw]; rfl
  have e2 : w.node_ids.getD (mid.length + 1) 0 = n0 := by
    rw [hw, List.getD_cons_succ, List.getD_eq_getElem?_getD, List.getElem?_concat_length]
    rfl
  have e3 : ((w.node_ids.drop 0).take (mid.length + 1 - 0 + 1)).map (coord_of nm)
      = w.node_ids.map (coord_of nm) := by
    rw [List.drop_zero, show mid.length + 1 - 0 + 1 = mid.length + 2 from by omega, ← hn,
      List.take_length]
  have hseg : way_segments nm (node_counter ways) w.node_ids
      = [(n0, n0, w.node_ids.map (coord_of nm))] := by
    unfold way_segments
    rw [hbp, show zipConsec [0, mid.length + 1] = [(0, mid.length + 1)] from rfl,
      List.map_cons, List.map_nil,
      show seg_of nm w.node_ids (0, mid.length + 1)
        = (w.node_ids.getD 0 0, w.node_ids.getD (mid.length + 1) 0,
           ((w.node_ids.drop 0).take (mid.length + 1 - 0 + 1)).map (coord_of nm)) from rfl,
      e1, e2, e3]
  refine ⟨st', hrun, ?_, process_way_self_pres hself hrun⟩
  rw [hshape, hseg]

/-- C6 witness: the amended statement evaluated on the kept-ways list
holding the loop 1-2-3-1 and a second way 1-4 that shares the loop's
endpoint node 1 but neither interior node: processing the loop from the
empty state yields exactly one road, a self-loop carrying the whole loop
polyline. -/
theorem C6_witness :
    way_1231.node_ids = 1 :: ([2, 3] ++ [1])
    ∧ (∀ x ∈ way_1231.node_ids, (alookup nm_abc x).isSome)
    ∧ (∀ x ∈ ([2, 3] : List NodeID), node_counter [way_14, way_1231] x = 1)
    ∧ (∀ r ∈ (st_empty : SplitState Unit Unit).roads,
        r.node1 = r.node2 → r.src_i = r.dst_i)
    ∧ ∃ st' : SplitState Unit Unit,
        process_way nm_abc (node_counter [way_14, way_1231]) unit_rd unit_id
          way_1231 st_empty = .ok st'
        ∧ st'.roads.map road_shape
            = (st_empty : SplitState Unit Unit).roads.map road_shape
            ++ [(1, 1, way_1231.node_ids.map (coord_of nm_abc))]
        ∧ ∀ r ∈ st'.roads, r.node1 = r.node2 → r.src_i = r.dst_i :=
  ⟨by decide, by decide, by decide, by decide,
   C6_amended [way_14, way_1231] nm_abc unit_rd unit_id way_1231 1 [2, 3] st_empty
     (by decide) (by decide) (by decide) (by decide)⟩

/-- C3 (amended): the constructor does not surface these failures as
initialisation errors — it panics.  (i) If some kept way references a node
id absent from the node table, `Graph::new` fails with a panic (the
`node_mapping[&node]` HashMap index, or an earlier panic of a preceding
way).  (ii) If no way is kept, the geometry collection is empty and
`Mercator::from(...).unwrap()` panics.  (iii) Every failure `Graph::new`
returns is a panic: `BuildFailure.initError` is never produced. -/
theorem C3_amended {RD ID : Type} (elements : List Element)
    (keep_road : Tags → Bool) (mkRD : Tags → RD) (mkID : Unit → ID) :
    ((∃ w ∈ (scan_elements keep_road elements).2, ∃ x ∈ w.node_ids,
        alookup (scan_elements keep_road elements).1 x = none) →
      ∃ msg : String, graph_new elements keep_road mkRD mkID
        = .error (BuildFailure.panicked msg))
    ∧ ((scan_elements keep_road elements).2 = [] →
      graph_new elements keep_road mkRD mkID
        = .error (BuildFailure.panicked "called Option unwrap on a None value"))
    ∧ (∀ e : BuildFailure, graph_new elements keep_road mkRD mkID = .error e →
      ∃ msg : String, e = .panicked msg) := by
  refine ⟨?_, ?_, ?_⟩
  · rintro ⟨w, hw, x, hx, hnone⟩
    cases hsp : split_edges (scan_elements keep_road elements).1
        (scan_elements keep_road elements).2 mkRD mkID with
    | error e =>
      obtain ⟨msg, hmsg⟩ := split_edges_error_panicked hsp
      refine ⟨msg, ?_⟩
      simp only [graph_new, hsp]
      rw [hmsg]
    | ok st =>
      have hsome := split_edges_ok_mapped hsp w hw x hx
      rw [hnone] at hsome
      simp at hsome
  · intro hways
    have hsp : split_edges (scan_elements keep_road elements).1
        (scan_elements keep_road elements).2 mkRD mkID
        = .ok (st_empty : SplitState RD ID) := by
      rw [hways]
      rfl
    simp only [graph_new, hsp]
    rfl
  · intro e hrun
    cases hsp : split_edges (scan_elements keep_road elements).1
        (scan_elements keep_road elements).2 mkRD mkID with
    | error e2 =>
      simp only [graph_new, hsp, Except.error.injEq] at hrun
      obtain ⟨msg, hmsg⟩ := split_edges_error_panicked hsp
      refine ⟨msg, ?_⟩
      rw [← hrun]
      exact hmsg
    | ok st =>
      cases hm : Mercator.from_collection
          ((st.roads.map (fun r => r.linestring)).flatten
            ++ st.intersections.map (fun i => i.point)) with
      | none =>
        simp only [graph_new, hsp, hm, Except.error.injEq] at hrun
        exact ⟨"called Option unwrap on a None value", hrun.symm⟩
      | some m =>
        simp only [graph_new, hsp, hm] at hrun
        cases hrun

/-- C3 witness: the amended statement evaluated on a stream holding one kept
way whose node ids 1 and 2 are absent from the (empty) node table: the
constructor fails with a panic, not an initialisation error. -/
theorem C3_witness :
    (∃ w ∈ (scan_elements keep_all [Element.way 5 [1, 2] ⟨[]⟩]).2,
      ∃ x ∈ w.node_ids,
        alookup (scan_elements keep_all [Element.way 5 [1, 2] ⟨[]⟩]).1 x = none)
    ∧ ∃ msg : String, graph_new [Element.way 5 [1, 2] ⟨[]⟩] keep_all unit_rd unit_id
        = .error (BuildFailure.panicked msg) :=
  ⟨by decide,
   (C3_amended [Element.way 5 [1, 2] ⟨[]⟩] keep_all unit_rd unit_id).1 (by decide)⟩

theorem nodemap_hit {T : Type} [DecidableEq T] (m : NodeMap T) (t : T) (id : Nat)
    (h : alookup m.node_to_id t = some id) : m.get_or_insert t = (m, id) := by
  unfold NodeMap.get_or_insert
  rw [h]

theorem nodemap_miss {T : Type} [DecidableEq T] (m : NodeMap T) (t : T)
    (h : alookup m.node_to_id t = none) :
    m.get_or_insert t
      = ({ node_to_id := (t, m.id_to_node.length) :: m.node_to_id,
           id_to_node := m.id_to_node ++ [t] }, m.id_to_node.length) := by
  unfold NodeMap.get_or_insert
  rw [h]

theorem nodemap_step_wf {T : Type} [DecidableEq T] (m : NodeMap T) (t : T)
    (hwf : NodeMapWF m) : NodeMapWF (m.get_or_insert t).1 := by
  cases h : alookup m.node_to_id t with
  | some id =>
    rw [nodemap_hit m t id h]
    exact hwf
  | none =>
    rw [nodemap_miss m t h]
    intro t' id'
    constructor
    · intro h'
      rw [alookup_cons] at h'
      by_cases ht : t = t'
      · rw [if_pos ht] at h'
        have hid : id' = m.id_to_node.length := (Option.some.inj h').symm
        subst hid
        subst ht
        exact List.getElem?_concat_length m.id_to_node t
      · rw [if_neg ht] at h'
        have hold := (hwf t' id').mp h'
        have hlt : id' < m.id_to_node.length := (List.getElem?_eq_some_iff.mp hold).1
        rw [List.getElem?_append_left hlt]
        exact hold
    · intro h'
      rw [alookup_cons]
      by_cases hid : id' < m.id_to_node.length
      · rw [List.getElem?_append_left hid] at h'
        have hold := (hwf t' id').mpr h'
        by_cases ht : t = t'
        · subst ht
          rw [h] at hold
          cases hold
        · rw [if_neg ht]
          exact hold
      · rw [List.getElem?_append_right (Nat.le_of_not_lt hid)] at h'
        cases hd : id' - m.id_to_node.length with
        | zero =>
          rw [hd] at h'
          simp at h'
          subst h'
          rw [if_pos rfl]
          have hide : id' = m.id_to_node.length := by omega
          rw [hide]
        | succ k =>
          rw [hd] at h'
          simp at h'

theorem nodemap_mem_iff {T : Type} [DecidableEq T] (m : NodeMap T) (t : T)
    (hwf : NodeMapWF m) : (alookup m.node_to_id t).isSome ↔ t ∈ m.id_to_node := by
  constructor
  · intro h
    obtain ⟨id, hid⟩ := Option.isSome_iff_exists.mp h
    exact List.mem_iff_getElem?.mpr ⟨id, (hwf t id).mp hid⟩
  · intro h
    obtain ⟨id, hid⟩ := List.mem_iff_getElem?.mp h
    rw [(hwf t id).mpr hid]
    rfl

theorem nodemap_run_invariant {T : Type} [DecidableEq T] :
    ∀ (ops : List T) (m : NodeMap T), NodeMapWF m →
      NodeMapWF (ops.foldl (fun m t => (m.get_or_insert t).1) m)
      ∧ (ops.foldl (fun m t => (m.get_or_insert t).1) m).id_to_node
          = ops.foldl (fun acc t => if t ∈ acc then acc else acc ++ [t]) m.id_to_node := by
  intro ops
  induction ops with
  | nil =>
    intro m hwf
    exact ⟨hwf, rfl⟩
  | cons t ops ih =>
    intro m hwf
    have hstep := nodemap_step_wf m t hwf
    have hid : (m.get_or_insert t).1.id_to_node
        = if t ∈ m.id_to_node then m.id_to_node else m.id_to_node ++ [t] := by
      cases h : alookup m.node_to_id t with
      | some id =>
        rw [nodemap_hit m t id h]
        rw [if_pos ((nodemap_mem_iff m t hwf).mp (by rw [h]; rfl))]
      | none =>
        have hnm : ¬(t ∈ m.id_to_node) := by
          intro hmem
          have hs := (nodemap_mem_iff m t hwf).mpr hmem
          rw [h] at hs
          simp at hs
        rw [nodemap_miss m t h, if_neg hnm]
    simp only [List.foldl_cons]
    obtain ⟨hwf', heq⟩ := ih (m.get_or_insert t).1 hstep
    refine ⟨hwf', ?_⟩
    rw [heq, hid]

theorem nodemap_run_wf {T : Type} [DecidableEq T] (ops : List T) :
    NodeMapWF (NodeMap.run ops)
    ∧ (NodeMap.run ops).id_to_node = firstOccurrences ops := by
  have hnew : NodeMapWF (NodeMap.new : NodeMap T) := by
    intro t id
    constructor
    · intro h
      simp [NodeMap.new, alookup_nil] at h
    · intro h
      simp [NodeMap.new] at h
  exact nodemap_run_invariant ops NodeMap.new hnew

/-- C8: for every sequence of `get_or_insert` operations from the empty map,
the dense vector is exactly the distinct values in first-insertion order
(ids are dense positions 0, 1, ... assigned monotonically); `get` answers
Some id exactly when the value first occurred at position id and None
otherwise; repeating `get_or_insert` on an inserted value returns the same
id and leaves the map unchanged; a fresh value gets the current count as its
id; and `translate_id` inverts `get_or_insert`. -/
theorem C8_nodemap {T : Type} [DecidableEq T] [Inhabited T] (ops : List T) (t : T) :
    (NodeMap.run ops).id_to_node = firstOccurrences ops
    ∧ (∀ id : Nat, (NodeMap.run ops).get t = some id ↔
        (firstOccurrences ops)[id]? = some t)
    ∧ (∀ id : Nat, (NodeMap.run ops).get t = some id →
        (NodeMap.run ops).get_or_insert t = (NodeMap.run ops, id))
    ∧ ((NodeMap.run ops).get t = none →
        ((NodeMap.run ops).get_or_insert t).2 = (firstOccurrences ops).length
        ∧ ((NodeMap.run ops).get_or_insert t).1.id_to_node
            = firstOccurrences ops ++ [t])
    ∧ ((NodeMap.run ops).get_or_insert t).1.translate_id
        ((NodeMap.run ops).get_or_insert t).2 = t := by
  obtain ⟨hwf, hfo⟩ := nodemap_run_wf ops
  refine ⟨hfo, ?_, ?_, ?_, ?_⟩
  · intro id
    rw [← hfo]
    exact hwf t id
  · intro id hid
    exact nodemap_hit _ t id hid
  · intro hnone
    rw [nodemap_miss _ t hnone]
    constructor
    · show (NodeMap.run ops).id_to_node.length = (firstOccurrences ops).length
      rw [hfo]
    · show (NodeMap.run ops).id_to_node ++ [t] = firstOccurrences ops ++ [t]
      rw [hfo]
  · cases h : alookup (NodeMap.run ops).node_to_id t with
    | some id =>
      rw [nodemap_hit _ t id h]
      show (NodeMap.run ops).id_to_node.getD id default = t
      rw [List.getD_eq_getElem?_getD, (hwf t id).mp h]
      rfl
    | none =>
      rw [nodemap_miss _ t h]
      show ((NodeMap.run ops).id_to_node ++ [t]).getD
        (NodeMap.run ops).id_to_node.length default = t
      rw [List.getD_eq_getElem?_getD, List.getElem?_concat_length]
      rfl

/-- C8 witness: the operation sequence 5, 7, 5 — the repeat insertion of 5
returns id 0 (its first-insertion position) and leaves the map unchanged,
and `translate_id` maps the returned id back to 5. -/
theorem C8_witness :
    (firstOccurrences [5, 7, 5])[0]? = some 5
    ∧ (NodeMap.run [5, 7, 5]).get_or_insert 5 = (NodeMap.run [5, 7, 5], 0)
    ∧ ((NodeMap.run [5, 7, 5]).get_or_insert 5).1.translate_id
        ((NodeMap.run [5, 7, 5]).get_or_insert 5).2 = 5 :=
  ⟨((C8_nodemap [5, 7, 5] 5).2.1 0).mp (by decide),
   (C8_nodemap [5, 7, 5] 5).2.2.1 0 (by decide),
   (C8_nodemap [5, 7, 5] 5).2.2.2.2⟩

theorem set_property_self (props : List (String × JsonValue)) (k : String)
    (v : JsonValue) : alookup (set_property props k v) k = some v := by
  induction props with
  | nil => simp [set_property, alookup_cons]
  | cons p rest ih =>
    obtain ⟨pk, pv⟩ := p
    by_cases h : pk = k
    · simp [set_property, h, alookup_cons]
    · simp [set_property, h, alookup_cons, ih]

theorem set_property_ne (props : List (String × JsonValue)) (k k' : String)
    (v : JsonValue) (h : k' ≠ k) :
    alookup (set_property props k v) k' = alookup props k' := by
  induction props with
  | nil => simp [set_property, alookup_cons, alookup_nil, Ne.symm h]
  | cons p rest ih =>
    obtain ⟨pk, pv⟩ := p
    by_cases hp : pk = k
    · subst hp
      simp [set_property, alookup_cons, Ne.symm h]
    · simp [set_property, hp, alookup_cons, ih]

theorem tags_fold_ne (k : String) :
    ∀ (pairs : List (String × String)) (props : List (String × JsonValue)),
      (∀ kv ∈ pairs, kv.1 ≠ k) →
      alookup (pairs.foldl (fun ps kv => set_property ps kv.1 (.str kv.2)) props) k
        = alookup props k := by
  intro pairs
  induction pairs with
  | nil =>
    intro props _
    rfl
  | cons p rest ih =>
    intro props hk
    simp only [List.foldl_cons]
    rw [ih (set_property props p.1 (JsonValue.str p.2))
      (fun kv' h' => hk kv' (List.mem_cons_of_mem p h'))]
    exact set_property_ne props p.1 k (JsonValue.str p.2)
      (Ne.symm (hk p (List.mem_cons_self p rest)))

theorem tags_fold_mem :
    ∀ (pairs : List (String × String)) (props : List (String × JsonValue)),
      (pairs.map Prod.fst).Nodup →
      ∀ kv ∈ pairs,
        alookup (pairs.foldl (fun ps kv2 => set_property ps kv2.1 (.str kv2.2)) props)
          kv.1 = some (JsonValue.str kv.2) := by
  intro pairs
  induction pairs with
  | nil =>
    intro props _ kv hkv
    cases hkv
  | cons p rest ih =>
    intro props hnd kv hkv
    rw [List.map_cons, List.nodup_cons] at hnd
    simp only [List.foldl_cons]
    cases hkv with
    | head =>
      have hne : ∀ kv' ∈ rest, kv'.1 ≠ p.1 :=
        fun kv' h' heq => hnd.1 (heq ▸ List.mem_map_of_mem Prod.fst h')
      rw [tags_fold_ne p.1 rest (set_property props p.1 (JsonValue.str p.2)) hne]
      exact set_property_self props p.1 (JsonValue.str p.2)
    | tail _ h' =>
      exact ih (set_property props p.1 (JsonValue.str p.2)) hnd.2 kv h'

/-- C9 counterexample: a kept way carrying the OSM tag kind=X — because the
tag loop runs after the built-in properties and `set_property` overwrites,
the rendered feature's `kind` property is the tag's value "X", not the
road's classified kind (Footway): the feature does not carry the road's
kind under the `kind` property. -/
theorem C9_counterexample :
    Except.map (fun g => (render g).map (fun f => alookup f.properties "kind"))
      (map_model_new elems_c9x false) = .ok [some (JsonValue.str "X")]
    ∧ Except.map (fun g => g.roads.map (fun r => r.data.kind))
      (map_model_new elems_c9x false) = .ok [RoadKind.Footway]
    ∧ JsonValue.str "X" ≠ JsonValue.str RoadKind.Footway.debug_str := by
  decide

/-- C9 (amended): after a successful `MapModel::new`, `render` returns one
LineString feature per road, in the roads vector's order — which is RoadID
order, the road at index j having id j; each feature's geometry is the
road's linestring reprojected to WGS84; the properties hold every original
OSM tag with its original value (for distinct tag keys), and hold the
road's id, kind (Debug string), way and endpoint node ids under the
built-in names only when no OSM tag reuses that built-in key, because the
tag loop runs last and `set_property` overwrites. -/
theorem C9_render_features (elements : List Element) (flag : Bool)
    (g : Graph RoadData Unit)
    (h : map_model_new elements flag = .ok g) :
    (render g).length = g.roads.length
    ∧ ∀ (j : Nat) (r : Road RoadData), g.roads[j]? = some r →
        r.id = ⟨j⟩
        ∧ (render g)[j]? = some (to_gj g.mercator r)
        ∧ (to_gj g.mercator r).geometry = r.linestring.map g.mercator.to_wgs84_pt
        ∧ ((r.data.tags.pairs.map Prod.fst).Nodup →
            ∀ kv ∈ r.data.tags.pairs,
              alookup (to_gj g.mercator r).properties kv.1
                = some (JsonValue.str kv.2))
        ∧ ("id" ∉ r.data.tags.pairs.map Prod.fst →
            alookup (to_gj g.mercator r).properties "id"
              = some (JsonValue.num r.id.val))
        ∧ ("kind" ∉ r.data.tags.pairs.map Prod.fst →
            alookup (to_gj g.mercator r).properties "kind"
              = some (JsonValue.str r.data.kind.debug_str))
        ∧ ("way" ∉ r.data.tags.pairs.map Prod.fst →
            alookup (to_gj g.mercator r).properties "way"
              = some (JsonValue.str (toString r.way)))
        ∧ ("node1" ∉ r.data.tags.pairs.map Prod.fst →
            alookup (to_gj g.mercator r).properties "node1"
              = some (JsonValue.str (toString r.node1)))
        ∧ ("node2" ∉ r.data.tags.pairs.map Prod.fst →
            alookup (to_gj g.mercator r).properties "node2"
              = some (JsonValue.str (toString r.node2))) := by
  have hwf := graph_new_wf h
  refine ⟨by simp [render], ?_⟩
  intro j r hj
  have hbase : set_property (set_property (set_property (set_property
      (set_property [] "id" (JsonValue.num r.id.val)) "kind"
        (JsonValue.str r.data.kind.debug_str)) "way"
        (JsonValue.str (toString r.way))) "node1"
        (JsonValue.str (toString r.node1))) "node2"
        (JsonValue.str (toString r.node2))
      = [("id", JsonValue.num r.id.val),
         ("kind", JsonValue.str r.data.kind.debug_str),
         ("way", JsonValue.str (toString r.way)),
         ("node1", JsonValue.str (toString r.node1)),
         ("node2", JsonValue.str (toString r.node2))] := by
    simp [set_property]
  have hprops : (to_gj g.mercator r).properties
      = r.data.tags.pairs.foldl (fun ps kv => set_property ps kv.1 (.str kv.2))
          [("id", JsonValue.num r.id.val),
           ("kind", JsonValue.str r.data.kind.debug_str),
           ("way", JsonValue.str (toString r.way)),
           ("node1", JsonValue.str (toString r.node1)),
           ("node2", JsonValue.str (toString r.node2))] := by
    simp only [to_gj]
    rw [hbase]
  refine ⟨hwf.road_id j r hj, ?_, rfl, ?_, ?_, ?_, ?_, ?_, ?_⟩
  · simp only [render, List.getElem?_map, hj, Option.map_some']
  · intro hnd kv hkv
    rw [hprops]
    exact tags_fold_mem r.data.tags.pairs _ hnd kv hkv
  · intro hk
    rw [hprops, tags_fold_ne "id" r.data.tags.pairs _
      (fun kv hkv heq => hk (heq ▸ List.mem_map_of_mem Prod.fst hkv))]
    simp [alookup_cons]
  · intro hk
    rw [hprops, tags_fold_ne "kind" r.data.tags.pairs _
      (fun kv hkv heq => hk (heq ▸ List.mem_map_of_mem Prod.fst hkv))]
    simp [alookup_cons]
  · intro hk
    rw [hprops, tags_fold_ne "way" r.data.tags.pairs _
      (fun kv hkv heq => hk (heq ▸ List.mem_map_of_mem Prod.fst hkv))]
    simp [alookup_cons]
  · intro hk
    rw [hprops, tags_fold_ne "node1" r.data.tags.pairs _
      (fun kv hkv heq => hk (heq ▸ List.mem_map_of_mem Prod.fst hkv))]
    simp [alookup_cons]
  · intro hk
    rw [hprops, tags_fold_ne "node2" r.data.tags.pairs _
      (fun kv hkv heq => hk (heq ▸ List.mem_map_of_mem Prod.fst hkv))]
    simp [alookup_cons]

/-- C9 witness: the amended statement evaluated on a one-road build whose
tags (highway, surface) avoid the built-in property names: the feature
carries kind = "Footway" and both tags with their original values. -/
theorem C9_witness :
    map_model_new elems_render false = .ok gC9
    ∧ gC9.roads[0]? = some roadC9
    ∧ (roadC9.data.tags.pairs.map Prod.fst).Nodup
    ∧ "kind" ∉ roadC9.data.tags.pairs.map Prod.fst
    ∧ alookup (to_gj gC9.mercator roadC9).properties "kind"
        = some (JsonValue.str roadC9.data.kind.debug_str)
    ∧ ∀ kv ∈ roadC9.data.tags.pairs,
        alookup (to_gj gC9.mercator roadC9).properties kv.1
          = some (JsonValue.str kv.2) :=
  ⟨by decide, by decide, by decide, by decide,
   ((C9_render_features elems_render false gC9 (by decide)).2 0 roadC9
       (by decide)).2.2.2.2.2.1 (by decide),
   ((C9_render_features elems_render false gC9 (by decide)).2 0 roadC9
       (by decide)).2.2.2.1 (by decide)⟩

end SevSnape
